import Mathlib

/-!
Verification of the poputka shared-ride reservation engine.

Shallow embedding of the reservation core found in `booking_module.py`,
`handlers.py` and `database.py`: the Trip/Booking data model, booking
creation (`booking_module.handle_callback`, `book_qty_` path), the driver
confirm/reject handlers, passenger cancellation (`confirm_cancel_`), driver
single-booking cancellation (`confirm_driver_cancel_`), whole-trip
cancellation (`cancel_trip` / `notify_passengers_trip_cancelled`) and the
TTL expiry sweep (`expire_pending_bookings_job`).

Times are modelled as integers (a linear clock, same unit as the TTL).
Notification delivery is modelled by a success oracle (`sendOk`), since the
Python code calls the bot API and swallows or logs failures; the oracle lets
us state whether delivery failure can influence committed state.
-/

namespace Poputka

/-- Booking status strings from `database.BookingStatus`. -/
inductive BookingStatus
  | pending
  | confirmed
  | cancelled
  | rejected
  | expired
deriving DecidableEq, Repr

open BookingStatus

/-- Stored `booking_time` value: SQLite rows can hold a real datetime, a
text value (which may or may not parse), or NULL.  `text p` carries the
result of the ISO/strptime parse attempts of `_as_utc_datetime`. -/
inductive RawTime
  | missing
  | dt (t : Int)
  | text (parsed : Option Int)
deriving DecidableEq, Repr

/-- Embedding of `booking_module._as_utc_datetime`: best-effort parse of a
stored booking_time, `none` when it cannot be determined. -/
def asUtcDatetime : RawTime → Option Int
  | .missing => none
  | .dt t => some t
  | .text p => p

/-- Row of the `trips` table (fields relevant to the reservation engine). -/
structure Trip where
  id : Nat
  driver_id : Nat
  date : Int
  seats_available : Int
  is_active : Bool
deriving DecidableEq, Repr

/-- Row of the `bookings` table (fields relevant to the reservation engine). -/
structure Booking where
  id : Nat
  trip_id : Nat
  passenger_id : Nat
  seats_booked : Int
  booking_time : RawTime
  status : BookingStatus
deriving DecidableEq, Repr

/-- The SQLite database: two tables related 1:N. -/
structure DB where
  trips : List Trip
  bookings : List Booking
deriving DecidableEq, Repr

/-- Embedding of `session.query(Trip).get(trip_id)`. -/
def lookupTrip (db : DB) (tid : Nat) : Option Trip :=
  db.trips.find? (fun t => t.id == tid)

/-- Embedding of `session.query(Booking).get(booking_id)`. -/
def lookupBooking (db : DB) (bid : Nat) : Option Booking :=
  db.bookings.find? (fun b => b.id == bid)

/-- Write back a mutated Trip row (ORM attribute assignment + commit). -/
def updateTrip (db : DB) (tid : Nat) (f : Trip → Trip) : DB :=
  { db with trips := db.trips.map (fun t => if t.id == tid then f t else t) }

/-- Write back a mutated Booking row (ORM attribute assignment + commit). -/
def updateBooking (db : DB) (bid : Nat) (f : Booking → Booking) : DB :=
  { db with bookings := db.bookings.map (fun b => if b.id == bid then f b else b) }

/-- Notification events emitted towards the Telegram bot, with a `delivered`
flag telling whether the send succeeded (the code logs/swallows failures). -/
inductive Notice
  | driverNewBooking (driver_id bid : Nat) (seats : Int) (delivered : Bool)
  | passengerConfirmed (bid : Nat) (delivered : Bool)
  | passengerRejected (bid : Nat) (delivered : Bool)
  | passengerExpired (bid : Nat) (delivered : Bool)
  | driverBookingCancelled (bid : Nat) (delivered : Bool)
  | tripCancelledSend (passenger_id : Nat) (delivered : Bool)
deriving DecidableEq, Repr

/-- Outcome surfaced to the requesting user (callback answers / message
edits), including the silent fall-through branches of the handlers and the
unhandled `AttributeError` raised by attribute access on `None`. -/
inductive Reply
  | tripUnavailable
  | ownTrip
  | pastTrip
  | badQuantity
  | duplicateBooking
  | created
  | bookingNotFound
  | alreadyExpired
  | expiredNow
  | confirmedOk
  | silentNoop
  | rejectedOk
  | alreadyCancelled
  | cancelledOk
  | notYourBooking
  | tripDeletedCard
  | notYourTrip
  | tripCancelledOk
  | attrError
deriving DecidableEq, Repr

/-- Result of one handler invocation: committed database, notification
events, and the reply shown to the caller. -/
structure OpResult where
  db : DB
  notices : List Notice
  reply : Reply
deriving DecidableEq, Repr

/-- SQLAlchemy autoincrement primary key for a fresh bookings row. -/
def freshBookingId (db : DB) : Nat :=
  (db.bookings.map (fun b => b.id)).foldr max 0 + 1

/-- Predicate for the status filter `status.in_([PENDING, CONFIRMED])`. -/
def isActiveStatus (s : BookingStatus) : Bool :=
  s == pending || s == confirmed

/-- Embedding of `booking_module.handle_callback` for `book_qty_{tid}_{n}`:
booking creation.  `nowLocal` is `datetime.now()` (used for the past-trip
check), `nowUtc` is `datetime.utcnow()` (stored as booking_time). -/
def createBooking (db : DB) (tid : Nat) (seats_requested : Int)
    (from_user : Nat) (nowLocal nowUtc : Int) (sendOk : Bool) : OpResult :=
  match lookupTrip db tid with
  | none => ⟨db, [], .tripUnavailable⟩
  | some trip =>
    if !trip.is_active || trip.seats_available ≤ 0 then
      ⟨db, [], .tripUnavailable⟩
    else if trip.driver_id == from_user then
      ⟨db, [], .ownTrip⟩
    else if trip.date < nowLocal then
      ⟨db, [], .pastTrip⟩
    else if seats_requested < 1 || seats_requested > trip.seats_available then
      ⟨db, [], .badQuantity⟩
    else if db.bookings.any (fun b =>
        b.trip_id == tid && b.passenger_id == from_user && isActiveStatus b.status) then
      ⟨db, [], .duplicateBooking⟩
    else
      let bid := freshBookingId db
      let db1 := updateTrip db tid
        (fun t => { t with seats_available := t.seats_available - seats_requested })
      let db2 := { db1 with bookings := db1.bookings ++
        [⟨bid, tid, from_user, seats_requested, .dt nowUtc, pending⟩] }
      ⟨db2, [.driverNewBooking trip.driver_id bid seats_requested sendOk], .created⟩

/-- Embedding of the `confirm_booking_` handler in `handlers.py`.  The
actor (query.from_user) is taken as an argument but — exactly as in the
source — never consulted for authorization.  A PENDING booking past its TTL
is expired in place (seats returned, passenger notified of expiry). -/
def confirmBooking (db : DB) (bid : Nat) (actor : Nat) (nowUtc ttl : Int)
    (sendOk : Bool) : OpResult :=
  match lookupBooking db bid with
  | none => ⟨db, [], .bookingNotFound⟩
  | some booking =>
    if booking.status == expired then
      ⟨db, [], .alreadyExpired⟩
    else if booking.status == pending then
      let isExpired :=
        match asUtcDatetime booking.booking_time with
        | none => false
        | some bt => bt < nowUtc - ttl
      if isExpired then
        let db1 :=
          match lookupTrip db booking.trip_id with
          | none => db
          | some _ => updateTrip db booking.trip_id
              (fun t => { t with seats_available := t.seats_available + booking.seats_booked })
        let db2 := updateBooking db1 bid (fun b => { b with status := expired })
        ⟨db2, [.passengerExpired bid sendOk], .expiredNow⟩
      else
        let db1 := updateBooking db bid (fun b => { b with status := confirmed })
        ⟨db1, [.passengerConfirmed bid sendOk], .confirmedOk⟩
    else
      ⟨db, [], .silentNoop⟩

/-- Embedding of the `reject_booking_` handler in `handlers.py`: only acts
on a PENDING booking (silently doing nothing otherwise), returns the seats
and sets REJECTED; there is no TTL re-check and no actor check. -/
def rejectBooking (db : DB) (bid : Nat) (actor : Nat) (sendOk : Bool) : OpResult :=
  match lookupBooking db bid with
  | none => ⟨db, [], .silentNoop⟩
  | some booking =>
    if booking.status == pending then
      match lookupTrip db booking.trip_id with
      | none => ⟨db, [], .attrError⟩
      | some _ =>
        let db1 := updateTrip db booking.trip_id
          (fun t => { t with seats_available := t.seats_available + booking.seats_booked })
        let db2 := updateBooking db1 bid (fun b => { b with status := rejected })
        ⟨db2, [.passengerRejected bid sendOk], .rejectedOk⟩
    else
      ⟨db, [], .silentNoop⟩

/-- Embedding of the `confirm_cancel_` handler (passenger confirms the
cancellation of their booking).  The source reads `booking.status` before
any existence check, so a missing booking raises `AttributeError`. -/
def confirmCancel (db : DB) (bid : Nat) (actor : Nat) (sendOk : Bool) : OpResult :=
  match lookupBooking db bid with
  | none => ⟨db, [], .attrError⟩
  | some booking =>
    if booking.status == cancelled || booking.status == rejected
        || booking.status == expired then
      ⟨db, [], .alreadyCancelled⟩
    else if booking.passenger_id == actor then
      match lookupTrip db booking.trip_id with
      | none => ⟨db, [], .attrError⟩
      | some _ =>
        let db1 := updateTrip db booking.trip_id
          (fun t => { t with seats_available := t.seats_available + booking.seats_booked })
        let db2 := updateBooking db1 bid (fun b => { b with status := cancelled })
        ⟨db2, [.driverBookingCancelled bid sendOk], .cancelledOk⟩
    else
      ⟨db, [], .silentNoop⟩

/-- Embedding of the `confirm_driver_cancel_` handler (driver cancels a
single passenger booking): rejects already-terminal bookings, checks that
the actor is the trip driver, then returns the seats and sets CANCELLED. -/
def confirmDriverCancel (db : DB) (bid : Nat) (actor : Nat) (sendOk : Bool) : OpResult :=
  match lookupBooking db bid with
  | none => ⟨db, [], .bookingNotFound⟩
  | some booking =>
    if booking.status == cancelled || booking.status == rejected
        || booking.status == expired then
      ⟨db, [], .alreadyCancelled⟩
    else
      match lookupTrip db booking.trip_id with
      | none => ⟨db, [], .attrError⟩
      | some trip =>
        if trip.driver_id != actor then
          ⟨db, [], .notYourBooking⟩
        else
          let db1 := updateTrip db booking.trip_id
            (fun t => { t with seats_available := t.seats_available + booking.seats_booked })
          let db2 := updateBooking db1 bid (fun b => { b with status := cancelled })
          ⟨db2, [.passengerRejected bid sendOk], .cancelledOk⟩

/-- Embedding of `cancel_trip` together with
`notify_passengers_trip_cancelled`: marks the trip inactive, then for each
PENDING/CONFIRMED booking of the trip attempts the notification, and only
when the send succeeds writes the CANCELLED status.  No seat arithmetic is
performed anywhere on this path.  `sendOk` is keyed by booking id. -/
def cancelTrip (db : DB) (tid : Nat) (actor : Nat) (sendOk : Nat → Bool) : OpResult :=
  match lookupTrip db tid with
  | none => ⟨db, [], .tripDeletedCard⟩
  | some trip =>
    if !trip.is_active then
      ⟨db, [], .tripDeletedCard⟩
    else if trip.driver_id != actor then
      ⟨db, [], .notYourTrip⟩
    else
      let db1 := updateTrip db tid (fun t => { t with is_active := false })
      let affected := db1.bookings.filter
        (fun b => b.trip_id == tid && isActiveStatus b.status)
      let db2 := { db1 with bookings := db1.bookings.map (fun b =>
        if b.trip_id == tid && isActiveStatus b.status && sendOk b.id then
          { b with status := cancelled }
        else b) }
      ⟨db2, affected.map (fun b => .tripCancelledSend b.passenger_id (sendOk b.id)),
        .tripCancelledOk⟩

/-- One iteration of the sweep loop in `expire_pending_bookings_job` for
the row with id `bid`: parse booking_time (skip when unparseable), skip
when `booking_time >= cutoff` (cutoff = now − TTL), re-check PENDING, then
return the seats (when the trip row exists) and set EXPIRED; the expiry
notification is attempted and its failure swallowed. -/
def sweepStep (nowUtc ttl : Int) (sendOk : Nat → Bool)
    (acc : DB × List Notice) (bid : Nat) : DB × List Notice :=
  match lookupBooking acc.1 bid with
  | none => acc
  | some b =>
    match asUtcDatetime b.booking_time with
    | none => acc
    | some bt =>
      if bt ≥ nowUtc - ttl then acc
      else if b.status != pending then acc
      else
        let db1 :=
          match lookupTrip acc.1 b.trip_id with
          | none => acc.1
          | some _ => updateTrip acc.1 b.trip_id
              (fun t => { t with seats_available := t.seats_available + b.seats_booked })
        let db2 := updateBooking db1 bid (fun x => { x with status := expired })
        (db2, acc.2 ++ [.passengerExpired bid (sendOk bid)])

/-- Embedding of `expire_pending_bookings_job`: selects the bookings whose
status is PENDING and runs the sweep loop over them; one commit covers the
whole sweep. -/
def expirePendingBookings (db : DB) (nowUtc ttl : Int)
    (sendOk : Nat → Bool) : DB × List Notice :=
  let pendings := (db.bookings.filter (fun b => b.status == pending)).map
    (fun b => b.id)
  pendings.foldl (sweepStep nowUtc ttl sendOk) (db, [])

/-- Embedding of the seat-quantity keyboard built by the `book_` handler:
buttons 1..min(5, seats_available). -/
def seatQtyButtons (seats_available : Int) : List Int :=
  (List.range (min 5 seats_available).toNat).map (fun i => Int.ofNat i + 1)

/-- Embedding of `handle_passenger_trip_completed` (present in
`handlers.py` but not registered with the dispatcher — the registered
`passenger_trip_completed_` branch of `button_callback` only writes
`passenger_trip_result`): overwrites the status of any existing booking
with CONFIRMED, with no guard and no seat arithmetic. -/
def handlePassengerTripCompleted (db : DB) (bid : Nat) : DB :=
  match lookupBooking db bid with
  | none => db
  | some _ => updateBooking db bid (fun b => { b with status := confirmed })

/-- The operation surface of the reservation engine, as enumerated by the
spec: create booking, confirm, reject, cancel by passenger, cancel by
driver, cancel trip, expiry sweep. -/
inductive EngineOp
  | create (tid : Nat) (seats : Int) (from_user : Nat) (nowLocal nowUtc : Int) (sendOk : Bool)
  | confirm (bid actor : Nat) (nowUtc ttl : Int) (sendOk : Bool)
  | reject (bid actor : Nat) (sendOk : Bool)
  | cancelP (bid actor : Nat) (sendOk : Bool)
  | cancelD (bid actor : Nat) (sendOk : Bool)
  | cancelT (tid actor : Nat) (sendOk : Nat → Bool)
  | sweep (nowUtc ttl : Int) (sendOk : Nat → Bool)

/-- Apply one engine operation to the database. -/
def applyOp (db : DB) : EngineOp → DB
  | .create tid seats u nl nu s => (createBooking db tid seats u nl nu s).db
  | .confirm bid a n t s => (confirmBooking db bid a n t s).db
  | .reject bid a s => (rejectBooking db bid a s).db
  | .cancelP bid a s => (confirmCancel db bid a s).db
  | .cancelD bid a s => (confirmDriverCancel db bid a s).db
  | .cancelT tid a s => (cancelTrip db tid a s).db
  | .sweep n t s => (expirePendingBookings db n t s).1

/-- Whether the operation is the whole-trip cancellation. -/
def EngineOp.isCancelTrip : EngineOp → Bool
  | .cancelT _ _ _ => true
  | _ => false

/-- Primary keys are unique (SQLite PK columns). -/
def WF (db : DB) : Prop :=
  (db.trips.map (fun t => t.id)).Nodup ∧ (db.bookings.map (fun b => b.id)).Nodup

instance : DecidablePred WF := fun db => by
  unfold WF; infer_instance

/-- Contribution of one booking row to a trip's active booked-seat sum. -/
def seatContrib (tid : Nat) (b : Booking) : Int :=
  if b.trip_id == tid && isActiveStatus b.status then b.seats_booked else 0

/-- Sum of `seats_booked` over the trip's PENDING/CONFIRMED bookings. -/
def activeSeats (db : DB) (tid : Nat) : Int :=
  (db.bookings.map (seatContrib tid)).sum

/-- Trip seat total: `seats_available` plus active booked seats — the
quantity the spec says equals the capacity at creation. -/
def seatTotal (db : DB) (tid : Nat) : Option Int :=
  (lookupTrip db tid).map (fun t => t.seats_available + activeSeats db tid)

/-- Predicate: booking is a live (PENDING/CONFIRMED) booking of this
passenger on this trip. -/
def pairActive (tid pid : Nat) (b : Booking) : Bool :=
  b.trip_id == tid && b.passenger_id == pid && isActiveStatus b.status

/-- Number of PENDING/CONFIRMED bookings held by one passenger on one trip. -/
def countActive (db : DB) (tid pid : Nat) : Nat :=
  db.bookings.countP (pairActive tid pid)

/-- At most one non-terminal booking per (trip, passenger) pair. -/
def atMostOne (db : DB) : Prop :=
  ∀ tid pid, countActive db tid pid ≤ 1

section KeyedUpdate

variable {α : Type} (key : α → Nat)

lemma map_keyed_id (l : List α) (k : Nat) (f : α → α)
    (h : ∀ x ∈ l, (key x == k) = false) :
    l.map (fun x => if key x == k then f x else x) = l := by
  have h2 : ∀ x ∈ l, (fun x => if key x == k then f x else x) x = id x := by
    intro x hx
    simp [h x hx]
  rw [List.map_congr_left h2, List.map_id]

lemma sum_map_keyed_update (g : α → Int) (f : α → α) :
    ∀ (l : List α) (k : Nat) (b : α),
      l.find? (fun x => key x == k) = some b →
      (l.map key).Nodup →
      ((l.map (fun x => if key x == k then f x else x)).map g).sum
        = (l.map g).sum + (g (f b) - g b) := by
  intro l
  induction l with
  | nil => intro k b h; simp at h
  | cons a t ih =>
    intro k b hfind hnd
    have hnd2 : key a ∉ t.map key ∧ (t.map key).Nodup := by
      simpa using hnd
    cases hk : (key a == k) with
    | true =>
      simp only [List.find?_cons, hk] at hfind
      injection hfind with hb
      subst hb
      have htail : ∀ x ∈ t, (key x == k) = false := by
        intro x hx
        have hne : key x ≠ key a := by
          intro hxy
          exact hnd2.1 (hxy ▸ List.mem_map_of_mem key hx)
        have hak : key a = k := by simpa using hk
        simp [hak ▸ hne]
      rw [List.map_cons, map_keyed_id key t k f htail]
      simp only [List.map_cons, List.sum_cons, hk, if_true]
      ring
    | false =>
      simp only [List.find?_cons, hk] at hfind
      have := ih k b hfind hnd2.2
      simp only [List.map_cons, List.sum_cons, hk, if_false, Bool.false_eq_true]
      rw [this]
      ring

lemma find?_map_keyed_update_self (f : α → α) (hk : ∀ x, key (f x) = key x) :
    ∀ (l : List α) (k : Nat) (b : α),
      l.find? (fun x => key x == k) = some b →
      (l.map (fun x => if key x == k then f x else x)).find? (fun x => key x == k)
        = some (f b) := by
  intro l
  induction l with
  | nil => intro k b h; simp at h
  | cons a t ih =>
    intro k b hfind
    cases hka : (key a == k) with
    | true =>
      simp only [List.find?_cons, hka] at hfind
      injection hfind with hb
      subst hb
      rw [List.map_cons]
      simp only [hka, if_true]
      simp [List.find?_cons, hk, hka]
    | false =>
      simp only [List.find?_cons, hka] at hfind
      rw [List.map_cons]
      simp only [hka, if_false, Bool.false_eq_true]
      simp only [List.find?_cons, hka]
      exact ih k b hfind

lemma find?_map_keyed_update_other (f : α → α) (hk : ∀ x, key (f x) = key x)
    (l : List α) (k q : Nat) (hne : q ≠ k) :
    (l.map (fun x => if key x == k then f x else x)).find? (fun x => key x == q)
      = l.find? (fun x => key x == q) := by
  induction l with
  | nil => simp
  | cons a t ih =>
    rw [List.map_cons]
    cases hq : (key a == q) with
    | true =>
      have haq : key a = q := by simpa using hq
      have hak : (key a == k) = false := by
        simp [haq, hne]
      simp only [hak, if_false, Bool.false_eq_true]
      simp [List.find?_cons, hq]
    | false =>
      cases hak : (key a == k) with
      | true =>
        simp only [hak, if_true]
        have hfq : (key (f a) == q) = false := by
          simpa [hk] using hq
        simp only [List.find?_cons, hq, hfq]
        exact ih
      | false =>
        simp only [hak, if_false, Bool.false_eq_true]
        simp only [List.find?_cons, hq]
        exact ih

lemma map_key_keyed_update (f : α → α) (hk : ∀ x, key (f x) = key x)
    (l : List α) (k : Nat) :
    (l.map (fun x => if key x == k then f x else x)).map key = l.map key := by
  rw [List.map_map]
  refine List.map_congr_left ?_
  intro x _
  simp only [Function.comp_apply]
  cases h : (key x == k) with
  | true => simp [hk]
  | false => simp

lemma mem_map_keyed_update_of_fix {l : List α} {x : α} (hx : x ∈ l) (k : Nat)
    (f : α → α) (hfix : (key x == k) = true → f x = x) :
    x ∈ l.map (fun y => if key y == k then f y else y) := by
  refine List.mem_map.mpr ⟨x, hx, ?_⟩
  by_cases h : (key x == k) = true
  · simp [h, hfix h]
  · simp [h]

lemma mem_map_keyed_update_self {l : List α} {b : α} (hb : b ∈ l) (k : Nat)
    (f : α → α) (hkb : (key b == k) = true) :
    f b ∈ l.map (fun y => if key y == k then f y else y) := by
  refine List.mem_map.mpr ⟨b, hb, ?_⟩
  simp [hkb]

end KeyedUpdate

lemma lookupBooking_updateBooking_self {db : DB} {bid : Nat} {b : Booking}
    (h : lookupBooking db bid = some b) (f : Booking → Booking)
    (hf : ∀ x, (f x).id = x.id) :
    lookupBooking (updateBooking db bid f) bid = some (f b) :=
  find?_map_keyed_update_self (fun x : Booking => x.id) f hf db.bookings bid b h

lemma lookupBooking_updateBooking_other (db : DB) (bid : Nat) (f : Booking → Booking)
    (hf : ∀ x, (f x).id = x.id) (q : Nat) (hne : q ≠ bid) :
    lookupBooking (updateBooking db bid f) q = lookupBooking db q :=
  find?_map_keyed_update_other (fun x : Booking => x.id) f hf db.bookings bid q hne

lemma lookupTrip_updateTrip_self {db : DB} {tid : Nat} {t : Trip}
    (h : lookupTrip db tid = some t) (f : Trip → Trip)
    (hf : ∀ x, (f x).id = x.id) :
    lookupTrip (updateTrip db tid f) tid = some (f t) :=
  find?_map_keyed_update_self (fun x : Trip => x.id) f hf db.trips tid t h

lemma lookupTrip_updateTrip_other (db : DB) (tid : Nat) (f : Trip → Trip)
    (hf : ∀ x, (f x).id = x.id) (q : Nat) (hne : q ≠ tid) :
    lookupTrip (updateTrip db tid f) q = lookupTrip db q :=
  find?_map_keyed_update_other (fun x : Trip => x.id) f hf db.trips tid q hne

lemma lookupTrip_updateBooking (db : DB) (bid : Nat) (f : Booking → Booking)
    (tid : Nat) :
    lookupTrip (updateBooking db bid f) tid = lookupTrip db tid := rfl

lemma lookupBooking_updateTrip (db : DB) (tid : Nat) (f : Trip → Trip)
    (bid : Nat) :
    lookupBooking (updateTrip db tid f) bid = lookupBooking db bid := rfl

lemma activeSeats_updateTrip (db : DB) (tid : Nat) (f : Trip → Trip) (q : Nat) :
    activeSeats (updateTrip db tid f) q = activeSeats db q := rfl

lemma activeSeats_updateBooking {db : DB} {bid : Nat} {b : Booking}
    (h : lookupBooking db bid = some b) (hnd : (db.bookings.map (fun x => x.id)).Nodup)
    (f : Booking → Booking) (tid : Nat) :
    activeSeats (updateBooking db bid f) tid
      = activeSeats db tid + (seatContrib tid (f b) - seatContrib tid b) :=
  sum_map_keyed_update (fun x : Booking => x.id) (seatContrib tid) f db.bookings bid b h hnd

lemma WF_updateBooking {db : DB} (hwf : WF db) (bid : Nat)
    (f : Booking → Booking) (hf : ∀ x, (f x).id = x.id) :
    WF (updateBooking db bid f) := by
  constructor
  · exact hwf.1
  · have := map_key_keyed_update (fun x : Booking => x.id) f hf db.bookings bid
    unfold updateBooking
    rw [this]
    exact hwf.2

lemma WF_updateTrip {db : DB} (hwf : WF db) (tid : Nat)
    (f : Trip → Trip) (hf : ∀ x, (f x).id = x.id) :
    WF (updateTrip db tid f) := by
  constructor
  · have := map_key_keyed_update (fun x : Trip => x.id) f hf db.trips tid
    unfold updateTrip
    rw [this]
    exact hwf.1
  · exact hwf.2

/-- Statuses the engine never leaves: REJECTED, CANCELLED, EXPIRED. -/
def terminal3 (s : BookingStatus) : Bool :=
  s == rejected || s == cancelled || s == expired

lemma seatTotal_return_seats {db : DB} {bid : Nat} {b : Booking} {t0 : Trip}
    (hb : lookupBooking db bid = some b)
    (hwf : WF db)
    (hact : isActiveStatus b.status = true)
    (ht : lookupTrip db b.trip_id = some t0)
    (s : BookingStatus) (hs : isActiveStatus s = false) (tid : Nat) :
    seatTotal (updateBooking (updateTrip db b.trip_id
        (fun t => { t with seats_available := t.seats_available + b.seats_booked }))
      bid (fun x => { x with status := s })) tid
      = seatTotal db tid := by
  have hb1 : lookupBooking (updateTrip db b.trip_id
      (fun t => { t with seats_available := t.seats_available + b.seats_booked })) bid
      = some b := hb
  have hAS := activeSeats_updateBooking hb1 hwf.2
    (fun x => { x with status := s }) tid
  have hcontrib_new : seatContrib tid ({ b with status := s }) = 0 := by
    simp [seatContrib, isActiveStatus] at hs ⊢
    intro _ h2
    cases s <;> simp_all
  by_cases htid : tid = b.trip_id
  · subst htid
    have hl1 : lookupTrip (updateTrip db b.trip_id
        (fun t => { t with seats_available := t.seats_available + b.seats_booked })) b.trip_id
        = some { t0 with seats_available := t0.seats_available + b.seats_booked } :=
      lookupTrip_updateTrip_self ht _ (fun x => rfl)
    have hcontrib_old : seatContrib b.trip_id b = b.seats_booked := by
      simp [seatContrib, hact]
    unfold seatTotal
    rw [lookupTrip_updateBooking, hl1, ht, hAS, hcontrib_new, hcontrib_old]
    have hAT : activeSeats (updateTrip db b.trip_id
        (fun t => { t with seats_available := t.seats_available + b.seats_booked })) b.trip_id
        = activeSeats db b.trip_id := rfl
    rw [hAT]
    simp
    ring
  · have hl1 : lookupTrip (updateTrip db b.trip_id
        (fun t => { t with seats_available := t.seats_available + b.seats_booked })) tid
        = lookupTrip db tid :=
      lookupTrip_updateTrip_other db b.trip_id
        (fun t => { t with seats_available := t.seats_available + b.seats_booked })
        (fun x => rfl) tid htid
    have hcontrib_old : seatContrib tid b = 0 := by
      simp [seatContrib]
      intro h1
      exact absurd h1 (by simpa using Ne.symm htid)
    unfold seatTotal
    rw [lookupTrip_updateBooking, hl1, hAS, hcontrib_new, hcontrib_old]
    have hAT : activeSeats (updateTrip db b.trip_id
        (fun t => { t with seats_available := t.seats_available + b.seats_booked })) tid
        = activeSeats db tid := rfl
    rw [hAT]
    simp

lemma seatTotal_set_confirmed {db : DB} {bid : Nat} {b : Booking}
    (hb : lookupBooking db bid = some b)
    (hwf : WF db)
    (hact : isActiveStatus b.status = true) (tid : Nat) :
    seatTotal (updateBooking db bid (fun x => { x with status := confirmed })) tid
      = seatTotal db tid := by
  have hAS := activeSeats_updateBooking hb hwf.2
    (fun x => { x with status := confirmed }) tid
  have hact2 : b.status = pending ∨ b.status = confirmed := by
    cases hs : b.status <;> simp_all [isActiveStatus]
  have hsame : seatContrib tid ({ b with status := confirmed }) = seatContrib tid b := by
    rcases hact2 with h | h <;> simp [seatContrib, isActiveStatus, h]
  unfold seatTotal
  rw [lookupTrip_updateBooking, hAS, hsame]
  simp

lemma seatTotal_terminal_no_trip {db : DB} {bid : Nat} {b : Booking}
    (hb : lookupBooking db bid = some b)
    (hwf : WF db)
    (ht : lookupTrip db b.trip_id = none)
    (s : BookingStatus) (tid : Nat) :
    seatTotal (updateBooking db bid (fun x => { x with status := s })) tid
      = seatTotal db tid := by
  have hAS := activeSeats_updateBooking hb hwf.2
    (fun x => { x with status := s }) tid
  by_cases htid : tid = b.trip_id
  · subst htid
    unfold seatTotal
    rw [lookupTrip_updateBooking, ht]
    simp
  · have hcontrib_old : seatContrib tid b = 0 := by
      simp [seatContrib]
      intro h1
      exact absurd h1 (by simpa using Ne.symm htid)
    have hcontrib_new : seatContrib tid ({ b with status := s }) = 0 := by
      simp [seatContrib]
      intro h1
      exact absurd h1 (by simpa using Ne.symm htid)
    unfold seatTotal
    rw [lookupTrip_updateBooking, hAS, hcontrib_new, hcontrib_old]
    simp

lemma seatTotal_createBooking (db : DB) (tid : Nat) (n : Int) (u : Nat)
    (nl nu : Int) (s : Bool) (hwf : WF db) (q : Nat) :
    seatTotal ((createBooking db tid n u nl nu s).db) q = seatTotal db q := by
  unfold createBooking
  cases ht : lookupTrip db tid with
  | none => rfl
  | some trip =>
    simp only
    split
    · rfl
    split
    · rfl
    split
    · rfl
    split
    · rfl
    split
    · rfl
    show seatTotal ⟨(updateTrip db tid
      (fun t => { t with seats_available := t.seats_available - n })).trips,
      db.bookings ++ [⟨freshBookingId db, tid, u, n, .dt nu, pending⟩]⟩ q = seatTotal db q
    have hAS : activeSeats ⟨(updateTrip db tid
        (fun t => { t with seats_available := t.seats_available - n })).trips,
        db.bookings ++ [⟨freshBookingId db, tid, u, n, .dt nu, pending⟩]⟩ q
        = activeSeats db q + seatContrib q ⟨freshBookingId db, tid, u, n, .dt nu, pending⟩ := by
      unfold activeSeats
      rw [List.map_append, List.sum_append]
      simp
    by_cases hq : q = tid
    · subst hq
      have hl : lookupTrip (updateTrip db q
          (fun t => { t with seats_available := t.seats_available - n })) q
          = some { trip with seats_available := trip.seats_available - n } :=
        lookupTrip_updateTrip_self ht _ (fun x => rfl)
      have hcon : seatContrib q ⟨freshBookingId db, q, u, n, .dt nu, pending⟩ = n := by
        simp [seatContrib, isActiveStatus]
      unfold seatTotal at *
      rw [show lookupTrip ⟨(updateTrip db q
        (fun t => { t with seats_available := t.seats_available - n })).trips,
        db.bookings ++ [⟨freshBookingId db, q, u, n, .dt nu, pending⟩]⟩ q
        = lookupTrip (updateTrip db q
          (fun t => { t with seats_available := t.seats_available - n })) q from rfl]
      rw [hl, ht, hAS, hcon]
      simp

    · have hl : lookupTrip (updateTrip db tid
          (fun t => { t with seats_available := t.seats_available - n })) q
          = lookupTrip db q :=
        lookupTrip_updateTrip_other db tid
          (fun t => { t with seats_available := t.seats_available - n })
          (fun x => rfl) q hq
      have hcon : seatContrib q ⟨freshBookingId db, tid, u, n, .dt nu, pending⟩ = 0 := by
        simp [seatContrib]
        intro h1
        exact absurd h1 (by simpa using Ne.symm hq)
      unfold seatTotal at *
      rw [show lookupTrip ⟨(updateTrip db tid
        (fun t => { t with seats_available := t.seats_available - n })).trips,
        db.bookings ++ [⟨freshBookingId db, tid, u, n, .dt nu, pending⟩]⟩ q
        = lookupTrip (updateTrip db tid
          (fun t => { t with seats_available := t.seats_available - n })) q from rfl]
      rw [hl, hAS, hcon]
      simp

lemma seatTotal_confirmBooking (db : DB) (bid actor : Nat) (n ttl : Int)
    (s : Bool) (hwf : WF db) (q : Nat) :
    seatTotal ((confirmBooking db bid actor n ttl s).db) q = seatTotal db q := by
  unfold confirmBooking
  cases hb : lookupBooking db bid with
  | none => rfl
  | some b =>
    simp only
    split
    · rfl
    next hne =>
      split
      next hpend =>
        have hact : isActiveStatus b.status = true := by
          simp [isActiveStatus, hpend]
        cases hbt : asUtcDatetime b.booking_time with
        | none =>
          simp only
          exact seatTotal_set_confirmed hb hwf hact q
        | some bt =>
          simp only
          split
          next hexp =>
            cases ht : lookupTrip db b.trip_id with
            | none => exact seatTotal_terminal_no_trip hb hwf ht expired q
            | some t0 => exact seatTotal_return_seats hb hwf hact ht expired (by decide) q
          next hexp => exact seatTotal_set_confirmed hb hwf hact q
      next hpend => rfl

lemma seatTotal_rejectBooking (db : DB) (bid actor : Nat) (s : Bool)
    (hwf : WF db) (q : Nat) :
    seatTotal ((rejectBooking db bid actor s).db) q = seatTotal db q := by
  unfold rejectBooking
  cases hb : lookupBooking db bid with
  | none => rfl
  | some b =>
    simp only
    split
    next hpend =>
      have hact : isActiveStatus b.status = true := by
        simp [isActiveStatus, hpend]
      cases ht : lookupTrip db b.trip_id with
      | none => rfl
      | some t0 => exact seatTotal_return_seats hb hwf hact ht rejected (by decide) q
    next hpend => rfl

lemma seatTotal_confirmCancel (db : DB) (bid actor : Nat) (s : Bool)
    (hwf : WF db) (q : Nat) :
    seatTotal ((confirmCancel db bid actor s).db) q = seatTotal db q := by
  unfold confirmCancel
  cases hb : lookupBooking db bid with
  | none => rfl
  | some b =>
    simp only
    split
    · rfl
    next hterm =>
      split
      next hown =>
        have hact : isActiveStatus b.status = true := by
          simp only [Bool.or_eq_true, beq_iff_eq, not_or] at hterm
          cases hs : b.status <;> simp_all [isActiveStatus]
        cases ht : lookupTrip db b.trip_id with
        | none => rfl
        | some t0 => exact seatTotal_return_seats hb hwf hact ht cancelled (by decide) q
      next hown => rfl

lemma seatTotal_confirmDriverCancel (db : DB) (bid actor : Nat) (s : Bool)
    (hwf : WF db) (q : Nat) :
    seatTotal ((confirmDriverCancel db bid actor s).db) q = seatTotal db q := by
  unfold confirmDriverCancel
  cases hb : lookupBooking db bid with
  | none => rfl
  | some b =>
    simp only
    split
    · rfl
    next hterm =>
      have hact : isActiveStatus b.status = true := by
        simp only [Bool.or_eq_true, beq_iff_eq, not_or] at hterm
        cases hs : b.status <;> simp_all [isActiveStatus]
      cases ht : lookupTrip db b.trip_id with
      | none => rfl
      | some t0 =>
        simp only
        split
        next hd => rfl
        next hd => exact seatTotal_return_seats hb hwf hact ht cancelled (by decide) q

lemma WF_sweepStep (nowUtc ttl : Int) (sendOk : Nat → Bool)
    (acc : DB × List Notice) (bid : Nat) (hwf : WF acc.1) :
    WF (sweepStep nowUtc ttl sendOk acc bid).1 := by
  unfold sweepStep
  cases hb : lookupBooking acc.1 bid with
  | none => exact hwf
  | some b =>
    simp only
    cases hbt : asUtcDatetime b.booking_time with
    | none => exact hwf
    | some bt =>
      simp only
      split
      · exact hwf
      split
      · exact hwf
      cases ht : lookupTrip acc.1 b.trip_id with
      | none =>
        exact WF_updateBooking hwf bid
          (fun x => { x with status := expired }) (fun x => rfl)
      | some t0 =>
        exact WF_updateBooking
          (WF_updateTrip hwf b.trip_id
            (fun t => { t with seats_available := t.seats_available + b.seats_booked })
            (fun x => rfl))
          bid (fun x => { x with status := expired }) (fun x => rfl)

lemma seatTotal_sweepStep (nowUtc ttl : Int) (sendOk : Nat → Bool)
    (acc : DB × List Notice) (bid : Nat) (hwf : WF acc.1) (q : Nat) :
    seatTotal (sweepStep nowUtc ttl sendOk acc bid).1 q = seatTotal acc.1 q := by
  unfold sweepStep
  cases hb : lookupBooking acc.1 bid with
  | none => rfl
  | some b =>
    simp only
    cases hbt : asUtcDatetime b.booking_time with
    | none => rfl
    | some bt =>
      simp only
      split
      · rfl
      split
      · rfl
      next h1 h2 =>
        have hpend : b.status = pending := by
          simpa using h2
        have hact : isActiveStatus b.status = true := by
          simp [isActiveStatus, hpend]
        cases ht : lookupTrip acc.1 b.trip_id with
        | none => exact seatTotal_terminal_no_trip hb hwf ht expired q
        | some t0 => exact seatTotal_return_seats hb hwf hact ht expired (by decide) q

lemma foldl_sweepStep_inv (nowUtc ttl : Int) (sendOk : Nat → Bool)
    (P : DB → Prop)
    (hstep : ∀ acc bid, P acc.1 → P (sweepStep nowUtc ttl sendOk acc bid).1) :
    ∀ (ids : List Nat) (acc : DB × List Notice),
      P acc.1 → P (ids.foldl (sweepStep nowUtc ttl sendOk) acc).1 := by
  intro ids
  induction ids with
  | nil => intro acc h; exact h
  | cons i rest ih => intro acc h; exact ih _ (hstep acc i h)

lemma WF_expirePendingBookings (db : DB) (nowUtc ttl : Int) (sendOk : Nat → Bool)
    (hwf : WF db) :
    WF (expirePendingBookings db nowUtc ttl sendOk).1 := by
  unfold expirePendingBookings
  exact foldl_sweepStep_inv nowUtc ttl sendOk WF
    (fun acc bid h => WF_sweepStep nowUtc ttl sendOk acc bid h) _ (db, []) hwf

lemma seatTotal_expirePendingBookings (db : DB) (nowUtc ttl : Int)
    (sendOk : Nat → Bool) (hwf : WF db) (q : Nat) :
    seatTotal (expirePendingBookings db nowUtc ttl sendOk).1 q = seatTotal db q := by
  unfold expirePendingBookings
  have hmain := foldl_sweepStep_inv nowUtc ttl sendOk
    (fun d => WF d ∧ ∀ r, seatTotal d r = seatTotal db r)
    (fun acc bid h => ⟨WF_sweepStep nowUtc ttl sendOk acc bid h.1,
      fun r => (seatTotal_sweepStep nowUtc ttl sendOk acc bid h.1 r).trans (h.2 r)⟩)
    ((db.bookings.filter (fun b => b.status == pending)).map (fun b => b.id))
    (db, []) ⟨hwf, fun _ => rfl⟩
  exact hmain.2 q

lemma eq_of_mem_of_lookup {db : DB} {bid : Nat} {b0 b : Booking}
    (hnd : (db.bookings.map (fun x => x.id)).Nodup)
    (hb0 : lookupBooking db bid = some b0)
    (hb : b ∈ db.bookings) (hid : b.id = bid) : b = b0 := by
  have hb0f : db.bookings.find? (fun x => x.id == bid) = some b0 := hb0
  have hb0mem : b0 ∈ db.bookings := List.mem_of_find?_eq_some hb0f
  have hb0id := List.find?_some hb0f
  refine List.inj_on_of_nodup_map hnd hb hb0mem ?_
  have h2 : b0.id = bid := by simpa using hb0id
  simp [hid, h2]

lemma terminal_not_active {s : BookingStatus} (h : terminal3 s = true) :
    isActiveStatus s = false := by
  cases s <;> simp_all [terminal3, isActiveStatus]

lemma mem_updateBooking_of_terminal {db : DB} {bid : Nat} {b0 b : Booking}
    (hnd : (db.bookings.map (fun x => x.id)).Nodup)
    (hb0 : lookupBooking db bid = some b0)
    (hact : isActiveStatus b0.status = true)
    (hb : b ∈ db.bookings) (hterm : terminal3 b.status = true)
    (f : Booking → Booking) :
    b ∈ (updateBooking db bid f).bookings := by
  refine mem_map_keyed_update_of_fix (fun x : Booking => x.id) hb bid f ?_
  intro hid
  exfalso
  have hbeq : b = b0 := eq_of_mem_of_lookup hnd hb0 hb (by simpa using hid)
  rw [hbeq] at hterm
  rw [terminal_not_active hterm] at hact
  exact Bool.false_ne_true hact

lemma terminal_mem_confirmBooking {db : DB} (bid actor : Nat) (n ttl : Int)
    (s : Bool) (hwf : WF db) {b : Booking} (hb : b ∈ db.bookings)
    (hterm : terminal3 b.status = true) :
    b ∈ ((confirmBooking db bid actor n ttl s).db).bookings := by
  unfold confirmBooking
  cases hb0 : lookupBooking db bid with
  | none => exact hb
  | some b0 =>
    simp only
    split
    · exact hb
    next hne =>
      split
      next hpend =>
        have hact : isActiveStatus b0.status = true := by
          simp [isActiveStatus, hpend]
        cases hbt : asUtcDatetime b0.booking_time with
        | none =>
          simp only
          exact mem_updateBooking_of_terminal hwf.2 hb0 hact hb hterm _
        | some bt =>
          simp only
          split
          next hexp =>
            cases ht : lookupTrip db b0.trip_id with
            | none => exact mem_updateBooking_of_terminal hwf.2 hb0 hact hb hterm _
            | some t0 =>
              have hb0u : lookupBooking (updateTrip db b0.trip_id
                  (fun t => { t with seats_available := t.seats_available + b0.seats_booked }))
                  bid = some b0 := hb0
              exact mem_updateBooking_of_terminal hwf.2 hb0u hact hb hterm _
          next hexp => exact mem_updateBooking_of_terminal hwf.2 hb0 hact hb hterm _
      next hpend => exact hb

lemma terminal_mem_rejectBooking {db : DB} (bid actor : Nat) (s : Bool)
    (hwf : WF db) {b : Booking} (hb : b ∈ db.bookings)
    (hterm : terminal3 b.status = true) :
    b ∈ ((rejectBooking db bid actor s).db).bookings := by
  unfold rejectBooking
  cases hb0 : lookupBooking db bid with
  | none => exact hb
  | some b0 =>
    simp only
    split
    next hpend =>
      have hact : isActiveStatus b0.status = true := by
        simp [isActiveStatus, hpend]
      cases ht : lookupTrip db b0.trip_id with
      | none => exact hb
      | some t0 =>
        have hb0u : lookupBooking (updateTrip db b0.trip_id
            (fun t => { t with seats_available := t.seats_available + b0.seats_booked }))
            bid = some b0 := hb0
        exact mem_updateBooking_of_terminal hwf.2 hb0u hact hb hterm _
    next hpend => exact hb

lemma terminal_mem_confirmCancel {db : DB} (bid actor : Nat) (s : Bool)
    (hwf : WF db) {b : Booking} (hb : b ∈ db.bookings)
    (hterm : terminal3 b.status = true) :
    b ∈ ((confirmCancel db bid actor s).db).bookings := by
  unfold confirmCancel
  cases hb0 : lookupBooking db bid with
  | none => exact hb
  | some b0 =>
    simp only
    split
    · exact hb
    next hterm0 =>
      split
      next hown =>
        have hact : isActiveStatus b0.status = true := by
          simp only [Bool.or_eq_true, beq_iff_eq, not_or] at hterm0
          cases hs : b0.status <;> simp_all [isActiveStatus]
        cases ht : lookupTrip db b0.trip_id with
        | none => exact hb
        | some t0 =>
          have hb0u : lookupBooking (updateTrip db b0.trip_id
              (fun t => { t with seats_available := t.seats_available + b0.seats_booked }))
              bid = some b0 := hb0
          exact mem_updateBooking_of_terminal hwf.2 hb0u hact hb hterm _
      next hown => exact hb

lemma terminal_mem_confirmDriverCancel {db : DB} (bid actor : Nat) (s : Bool)
    (hwf : WF db) {b : Booking} (hb : b ∈ db.bookings)
    (hterm : terminal3 b.status = true) :
    b ∈ ((confirmDriverCancel db bid actor s).db).bookings := by
  unfold confirmDriverCancel
  cases hb0 : lookupBooking db bid with
  | none => exact hb
  | some b0 =>
    simp only
    split
    · exact hb
    next hterm0 =>
      have hact : isActiveStatus b0.status = true := by
        simp only [Bool.or_eq_true, beq_iff_eq, not_or] at hterm0
        cases hs : b0.status <;> simp_all [isActiveStatus]
      cases ht : lookupTrip db b0.trip_id with
      | none => exact hb
      | some t0 =>
        simp only
        split
        next hd => exact hb
        next hd =>
          have hb0u : lookupBooking (updateTrip db b0.trip_id
              (fun t => { t with seats_available := t.seats_available + b0.seats_booked }))
              bid = some b0 := hb0
          exact mem_updateBooking_of_terminal hwf.2 hb0u hact hb hterm _

lemma terminal_mem_createBooking {db : DB} (tid : Nat) (n : Int) (u : Nat)
    (nl nu : Int) (s : Bool) {b : Booking} (hb : b ∈ db.bookings) :
    b ∈ ((createBooking db tid n u nl nu s).db).bookings := by
  unfold createBooking
  cases ht : lookupTrip db tid with
  | none => exact hb
  | some trip =>
    simp only
    split
    · exact hb
    split
    · exact hb
    split
    · exact hb
    split
    · exact hb
    split
    · exact hb
    exact List.mem_append_left _ hb

lemma terminal_mem_cancelTrip {db : DB} (tid actor : Nat) (sendOk : Nat → Bool)
    {b : Booking} (hb : b ∈ db.bookings) (hterm : terminal3 b.status = true) :
    b ∈ ((cancelTrip db tid actor sendOk).db).bookings := by
  unfold cancelTrip
  cases ht : lookupTrip db tid with
  | none => exact hb
  | some trip =>
    simp only
    split
    · exact hb
    split
    · exact hb
    refine List.mem_map.mpr ⟨b, hb, ?_⟩
    rw [terminal_not_active hterm]
    simp

lemma terminal_mem_sweepStep (nowUtc ttl : Int) (sendOk : Nat → Bool)
    (acc : DB × List Notice) (bid : Nat) (hwf : WF acc.1)
    {b : Booking} (hb : b ∈ acc.1.bookings) (hterm : terminal3 b.status = true) :
    b ∈ (sweepStep nowUtc ttl sendOk acc bid).1.bookings := by
  unfold sweepStep
  cases hb0 : lookupBooking acc.1 bid with
  | none => exact hb
  | some b0 =>
    simp only
    cases hbt : asUtcDatetime b0.booking_time with
    | none => exact hb
    | some bt =>
      simp only
      split
      · exact hb
      split
      · exact hb
      next h1 h2 =>
        have hpend : b0.status = pending := by simpa using h2
        have hact : isActiveStatus b0.status = true := by
          simp [isActiveStatus, hpend]
        cases ht : lookupTrip acc.1 b0.trip_id with
        | none => exact mem_updateBooking_of_terminal hwf.2 hb0 hact hb hterm _
        | some t0 =>
          have hb0u : lookupBooking (updateTrip acc.1 b0.trip_id
              (fun t => { t with seats_available := t.seats_available + b0.seats_booked }))
              bid = some b0 := hb0
          exact mem_updateBooking_of_terminal hwf.2 hb0u hact hb hterm _

lemma terminal_mem_expirePendingBookings (db : DB) (nowUtc ttl : Int)
    (sendOk : Nat → Bool) (hwf : WF db) {b : Booking} (hb : b ∈ db.bookings)
    (hterm : terminal3 b.status = true) :
    b ∈ (expirePendingBookings db nowUtc ttl sendOk).1.bookings := by
  unfold expirePendingBookings
  have hmain := foldl_sweepStep_inv nowUtc ttl sendOk
    (fun d => WF d ∧ b ∈ d.bookings)
    (fun acc bid h => ⟨WF_sweepStep nowUtc ttl sendOk acc bid h.1,
      terminal_mem_sweepStep nowUtc ttl sendOk acc bid h.1 h.2 hterm⟩)
    ((db.bookings.filter (fun x => x.status == pending)).map (fun x => x.id))
    (db, []) ⟨hwf, hb⟩
  exact hmain.2

lemma confirm_terminal_unchanged {db : DB} {bid : Nat} {b : Booking}
    (hb : lookupBooking db bid = some b) (hterm : terminal3 b.status = true)
    (actor : Nat) (n ttl : Int) (s : Bool) :
    (confirmBooking db bid actor n ttl s).db = db
      ∧ (confirmBooking db bid actor n ttl s).notices = [] := by
  unfold confirmBooking
  rw [hb]
  cases hs : b.status <;> simp_all [terminal3]

lemma reject_terminal_unchanged {db : DB} {bid : Nat} {b : Booking}
    (hb : lookupBooking db bid = some b) (hterm : terminal3 b.status = true)
    (actor : Nat) (s : Bool) :
    (rejectBooking db bid actor s).db = db
      ∧ (rejectBooking db bid actor s).notices = [] := by
  unfold rejectBooking
  rw [hb]
  cases hs : b.status <;> simp_all [terminal3]

lemma confirmCancel_terminal_unchanged {db : DB} {bid : Nat} {b : Booking}
    (hb : lookupBooking db bid = some b) (hterm : terminal3 b.status = true)
    (actor : Nat) (s : Bool) :
    (confirmCancel db bid actor s).db = db
      ∧ (confirmCancel db bid actor s).reply = .alreadyCancelled := by
  unfold confirmCancel
  rw [hb]
  cases hs : b.status <;> simp_all [terminal3]

lemma confirmDriverCancel_terminal_unchanged {db : DB} {bid : Nat} {b : Booking}
    (hb : lookupBooking db bid = some b) (hterm : terminal3 b.status = true)
    (actor : Nat) (s : Bool) :
    (confirmDriverCancel db bid actor s).db = db
      ∧ (confirmDriverCancel db bid actor s).reply = .alreadyCancelled := by
  unfold confirmDriverCancel
  rw [hb]
  cases hs : b.status <;> simp_all [terminal3]

lemma countActive_updateBooking_le {db : DB} {bid : Nat} {f : Booking → Booking}
    {tid pid : Nat}
    (h : ∀ x ∈ db.bookings, (x.id == bid) = true →
      pairActive tid pid (f x) = true → pairActive tid pid x = true) :
    countActive (updateBooking db bid f) tid pid ≤ countActive db tid pid := by
  unfold countActive updateBooking
  rw [List.countP_map]
  apply List.countP_mono_left
  intro x hx hpx
  simp only [Function.comp_apply] at hpx
  by_cases hid : (x.id == bid) = true
  · rw [if_pos hid] at hpx
    exact h x hx hid hpx
  · rw [if_neg hid] at hpx
    exact hpx

lemma countActive_updateBooking_terminal_le {db : DB} {bid : Nat}
    {s : BookingStatus} (hs : isActiveStatus s = false) {tid pid : Nat} :
    countActive (updateBooking db bid (fun x => { x with status := s })) tid pid
      ≤ countActive db tid pid := by
  apply countActive_updateBooking_le
  intro x _ _ hp
  exfalso
  simp [pairActive, hs] at hp

lemma countActive_updateTrip (db : DB) (tid0 : Nat) (f : Trip → Trip)
    (tid pid : Nat) :
    countActive (updateTrip db tid0 f) tid pid = countActive db tid pid := rfl

lemma countActive_confirmBooking_le (db : DB) (bid actor : Nat) (n ttl : Int)
    (s : Bool) (hwf : WF db) (tid pid : Nat) :
    countActive ((confirmBooking db bid actor n ttl s).db) tid pid
      ≤ countActive db tid pid := by
  unfold confirmBooking
  cases hb : lookupBooking db bid with
  | none => exact le_refl _
  | some b =>
    simp only
    split
    · exact le_refl _
    next hne =>
      split
      next hpend =>
        have hp2 : b.status = pending := by simpa using hpend
        cases hbt : asUtcDatetime b.booking_time with
        | none =>
          simp only
          apply countActive_updateBooking_le
          intro x hx hid hp
          have hxb : x = b := eq_of_mem_of_lookup hwf.2 hb hx (by simpa using hid)
          subst hxb
          simp [pairActive, isActiveStatus, hp2] at hp ⊢
          exact hp
        | some bt =>
          simp only
          split
          next hexp =>
            cases ht : lookupTrip db b.trip_id with
            | none => exact countActive_updateBooking_terminal_le (by decide)
            | some t0 => exact countActive_updateBooking_terminal_le (by decide)
          next hexp =>
            apply countActive_updateBooking_le
            intro x hx hid hp
            have hxb : x = b := eq_of_mem_of_lookup hwf.2 hb hx (by simpa using hid)
            subst hxb
            simp [pairActive, isActiveStatus, hp2] at hp ⊢
            exact hp
      next hpend => exact le_refl _

lemma countActive_rejectBooking_le (db : DB) (bid actor : Nat) (s : Bool)
    (tid pid : Nat) :
    countActive ((rejectBooking db bid actor s).db) tid pid
      ≤ countActive db tid pid := by
  unfold rejectBooking
  cases hb : lookupBooking db bid with
  | none => exact le_refl _
  | some b =>
    simp only
    split
    next hpend =>
      cases ht : lookupTrip db b.trip_id with
      | none => exact le_refl _
      | some t0 => exact countActive_updateBooking_terminal_le (by decide)
    next hpend => exact le_refl _

lemma countActive_confirmCancel_le (db : DB) (bid actor : Nat) (s : Bool)
    (tid pid : Nat) :
    countActive ((confirmCancel db bid actor s).db) tid pid
      ≤ countActive db tid pid := by
  unfold confirmCancel
  cases hb : lookupBooking db bid with
  | none => exact le_refl _
  | some b =>
    simp only
    split
    · exact le_refl _
    next hterm0 =>
      split
      next hown =>
        cases ht : lookupTrip db b.trip_id with
        | none => exact le_refl _
        | some t0 => exact countActive_updateBooking_terminal_le (by decide)
      next hown => exact le_refl _

lemma countActive_confirmDriverCancel_le (db : DB) (bid actor : Nat) (s : Bool)
    (tid pid : Nat) :
    countActive ((confirmDriverCancel db bid actor s).db) tid pid
      ≤ countActive db tid pid := by
  unfold confirmDriverCancel
  cases hb : lookupBooking db bid with
  | none => exact le_refl _
  | some b =>
    simp only
    split
    · exact le_refl _
    next hterm0 =>
      cases ht : lookupTrip db b.trip_id with
      | none => exact le_refl _
      | some t0 =>
        simp only
        split
        next hd => exact le_refl _
        next hd => exact countActive_updateBooking_terminal_le (by decide)

lemma countActive_cancelTrip_le (db : DB) (tid actor : Nat) (sendOk : Nat → Bool)
    (q p : Nat) :
    countActive ((cancelTrip db tid actor sendOk).db) q p
      ≤ countActive db q p := by
  unfold cancelTrip
  cases ht : lookupTrip db tid with
  | none => exact le_refl _
  | some trip =>
    simp only
    split
    · exact le_refl _
    split
    · exact le_refl _
    unfold countActive
    rw [List.countP_map]
    apply List.countP_mono_left
    intro x hx hpx
    simp only [Function.comp_apply] at hpx
    by_cases hc : (x.trip_id == tid && isActiveStatus x.status && sendOk x.id) = true
    · rw [if_pos hc] at hpx
      exfalso
      simp [pairActive, isActiveStatus] at hpx
    · rw [if_neg hc] at hpx
      exact hpx

lemma countActive_sweepStep_le (nowUtc ttl : Int) (sendOk : Nat → Bool)
    (acc : DB × List Notice) (bid : Nat) (q p : Nat) :
    countActive (sweepStep nowUtc ttl sendOk acc bid).1 q p
      ≤ countActive acc.1 q p := by
  unfold sweepStep
  cases hb : lookupBooking acc.1 bid with
  | none => exact le_refl _
  | some b =>
    simp only
    cases hbt : asUtcDatetime b.booking_time with
    | none => exact le_refl _
    | some bt =>
      simp only
      split
      · exact le_refl _
      split
      · exact le_refl _
      cases ht : lookupTrip acc.1 b.trip_id with
      | none => exact countActive_updateBooking_terminal_le (by decide)
      | some t0 => exact countActive_updateBooking_terminal_le (by decide)

lemma countActive_expirePendingBookings_le (db : DB) (nowUtc ttl : Int)
    (sendOk : Nat → Bool) (q p : Nat) :
    countActive (expirePendingBookings db nowUtc ttl sendOk).1 q p
      ≤ countActive db q p := by
  unfold expirePendingBookings
  have hmain := foldl_sweepStep_inv nowUtc ttl sendOk
    (fun d => countActive d q p ≤ countActive db q p)
    (fun acc bid h =>
      le_trans (countActive_sweepStep_le nowUtc ttl sendOk acc bid q p) h)
    ((db.bookings.filter (fun x => x.status == pending)).map (fun x => x.id))
    (db, []) (le_refl _)
  exact hmain

lemma atMostOne_createBooking (db : DB) (tid : Nat) (n : Int) (u : Nat)
    (nl nu : Int) (s : Bool) (hmo : atMostOne db) :
    atMostOne ((createBooking db tid n u nl nu s).db) := by
  unfold createBooking
  cases ht : lookupTrip db tid with
  | none => exact hmo
  | some trip =>
    simp only
    split
    · exact hmo
    split
    · exact hmo
    split
    · exact hmo
    split
    · exact hmo
    split
    next hdup => exact hmo
    next hdup =>
      intro q p
      show (db.bookings
        ++ [(⟨freshBookingId db, tid, u, n, .dt nu, pending⟩ : Booking)]).countP
          (pairActive q p) ≤ 1
      rw [List.countP_append]
      by_cases hq : q = tid ∧ p = u
      · obtain ⟨hq1, hq2⟩ := hq
        subst hq1
        subst hq2
        have h0 : db.bookings.countP (pairActive q p) = 0 := by
          rw [List.countP_eq_zero]
          intro a ha hpa
          apply hdup
          rw [List.any_eq_true]
          refine ⟨a, ha, ?_⟩
          simpa [pairActive] using hpa
        have h1 : ([⟨freshBookingId db, q, p, n, .dt nu, pending⟩] :
            List Booking).countP (pairActive q p) ≤ 1 := by
          calc ([⟨freshBookingId db, q, p, n, .dt nu, pending⟩] :
              List Booking).countP (pairActive q p)
              ≤ ([⟨freshBookingId db, q, p, n, .dt nu, pending⟩] :
                List Booking).length := List.countP_le_length _
            _ = 1 := rfl
        omega
      · have h1 : ([⟨freshBookingId db, tid, u, n, .dt nu, pending⟩] :
            List Booking).countP (pairActive q p) = 0 := by
          rw [List.countP_eq_zero]
          intro a ha
          have ha2 : a = ⟨freshBookingId db, tid, u, n, .dt nu, pending⟩ := by
            simpa using ha
          subst ha2
          simp [pairActive]
          intro h2 h3
          exact absurd ⟨h2.symm, h3.symm⟩ hq
        rw [h1]
        simpa using hmo q p

/-- Condition under which the sweep loop expires a row: status PENDING and
parseable booking_time strictly older than `now − TTL`. -/
def shouldExpire (nowUtc ttl : Int) (b : Booking) : Bool :=
  b.status == pending &&
    (match asUtcDatetime b.booking_time with
     | none => false
     | some bt => decide (bt < nowUtc - ttl))

lemma find?_key_eq_of_mem {α : Type} (key : α → Nat) :
    ∀ {l : List α}, (l.map key).Nodup → ∀ {b : α}, b ∈ l →
      l.find? (fun x => key x == key b) = some b := by
  intro l
  induction l with
  | nil => intro _ b hb; cases hb
  | cons a t ih =>
    intro hnd b hb
    have hnd2 : key a ∉ t.map key ∧ (t.map key).Nodup := by simpa using hnd
    rcases List.mem_cons.mp hb with rfl | hbt
    · simp [List.find?_cons]
    · have hne : (key a == key b) = false := by
        have hmem : key b ∈ t.map key := List.mem_map_of_mem key hbt
        have : key a ≠ key b := fun h => hnd2.1 (h ▸ hmem)
        simpa using this
      simp only [List.find?_cons, hne]
      exact ih hnd2.2 hbt

lemma lookupBooking_eq_of_mem {db : DB} (hnd : (db.bookings.map (fun x => x.id)).Nodup)
    {b : Booking} (hb : b ∈ db.bookings) : lookupBooking db b.id = some b :=
  find?_key_eq_of_mem (fun x : Booking => x.id) hnd hb

lemma mem_updateBooking_of_ne_id {db : DB} {b : Booking} (hb : b ∈ db.bookings)
    {bid : Nat} (hne : b.id ≠ bid) (f : Booking → Booking) :
    b ∈ (updateBooking db bid f).bookings := by
  refine mem_map_keyed_update_of_fix (fun x : Booking => x.id) hb bid f ?_
  intro hid
  exact absurd (by simpa using hid) hne

lemma sweepStep_mem_of_not_shouldExpire (nowUtc ttl : Int) (sendOk : Nat → Bool)
    (acc : DB × List Notice) (bid : Nat) (hwf : WF acc.1)
    {b : Booking} (hb : b ∈ acc.1.bookings)
    (hn : shouldExpire nowUtc ttl b = false) :
    b ∈ (sweepStep nowUtc ttl sendOk acc bid).1.bookings := by
  unfold sweepStep
  cases hb0 : lookupBooking acc.1 bid with
  | none => exact hb
  | some b0 =>
    simp only
    cases hbt : asUtcDatetime b0.booking_time with
    | none => exact hb
    | some bt =>
      simp only
      split
      · exact hb
      split
      · exact hb
      next h1 h2 =>
        have hpend : b0.status = pending := by simpa using h2
        have hold : bt < nowUtc - ttl := by
          rcases lt_or_ge bt (nowUtc - ttl) with h | h
          · exact h
          · exact absurd h h1
        have hse0 : shouldExpire nowUtc ttl b0 = true := by
          simp [shouldExpire, hpend, hbt, hold]
        have hneid : b.id ≠ bid := by
          intro hid
          have hbeq : b = b0 := eq_of_mem_of_lookup hwf.2 hb0 hb hid
          rw [hbeq, hse0] at hn
          simp at hn
        cases ht : lookupTrip acc.1 b0.trip_id with
        | none => exact mem_updateBooking_of_ne_id hb hneid _
        | some t0 =>
          exact mem_updateBooking_of_ne_id hb hneid _

lemma expire_mem_of_not_shouldExpire (db : DB) (nowUtc ttl : Int)
    (sendOk : Nat → Bool) (hwf : WF db) {b : Booking} (hb : b ∈ db.bookings)
    (hn : shouldExpire nowUtc ttl b = false) :
    b ∈ (expirePendingBookings db nowUtc ttl sendOk).1.bookings := by
  unfold expirePendingBookings
  have hmain := foldl_sweepStep_inv nowUtc ttl sendOk
    (fun d => WF d ∧ b ∈ d.bookings)
    (fun acc bid h => ⟨WF_sweepStep nowUtc ttl sendOk acc bid h.1,
      sweepStep_mem_of_not_shouldExpire nowUtc ttl sendOk acc bid h.1 h.2 hn⟩)
    ((db.bookings.filter (fun x => x.status == pending)).map (fun x => x.id))
    (db, []) ⟨hwf, hb⟩
  exact hmain.2

lemma sweepStep_notice_mono (nowUtc ttl : Int) (sendOk : Nat → Bool)
    (acc : DB × List Notice) (bid : Nat) {nt : Notice} (h : nt ∈ acc.2) :
    nt ∈ (sweepStep nowUtc ttl sendOk acc bid).2 := by
  unfold sweepStep
  cases hb0 : lookupBooking acc.1 bid with
  | none => exact h
  | some b0 =>
    simp only
    cases hbt : asUtcDatetime b0.booking_time with
    | none => exact h
    | some bt =>
      simp only
      split
      · exact h
      split
      · exact h
      cases ht : lookupTrip acc.1 b0.trip_id with
      | none => exact List.mem_append_left _ h
      | some t0 => exact List.mem_append_left _ h

lemma sweep_go_expires (nowUtc ttl : Int) (sendOk : Nat → Bool) :
    ∀ (ids : List Nat) (acc : DB × List Notice) (b : Booking),
      WF acc.1 → b ∈ acc.1.bookings → shouldExpire nowUtc ttl b = true →
      b.id ∈ ids →
      ({ b with status := expired }
          ∈ (ids.foldl (sweepStep nowUtc ttl sendOk) acc).1.bookings
        ∧ Notice.passengerExpired b.id (sendOk b.id)
          ∈ (ids.foldl (sweepStep nowUtc ttl sendOk) acc).2) := by
  intro ids
  induction ids with
  | nil => intro acc b _ _ _ hid; cases hid
  | cons i rest ih =>
    intro acc b hwf hb hse hid
    by_cases hcase : b.id = i
    · subst hcase
      have hfind : lookupBooking acc.1 b.id = some b := lookupBooking_eq_of_mem hwf.2 hb
      have hse2 : b.status = pending ∧
          ∃ bt, asUtcDatetime b.booking_time = some bt ∧ bt < nowUtc - ttl := by
        unfold shouldExpire at hse
        cases hp : asUtcDatetime b.booking_time with
        | none => rw [hp] at hse; simp_all
        | some bt =>
          rw [hp] at hse
          simp only [Bool.and_eq_true, beq_iff_eq, decide_eq_true_eq] at hse
          exact ⟨hse.1, bt, rfl, hse.2⟩
      obtain ⟨hpend, bt, hbt, hold⟩ := hse2
      have hstep : { b with status := expired }
            ∈ (sweepStep nowUtc ttl sendOk acc b.id).1.bookings
          ∧ Notice.passengerExpired b.id (sendOk b.id)
            ∈ (sweepStep nowUtc ttl sendOk acc b.id).2
          ∧ WF (sweepStep nowUtc ttl sendOk acc b.id).1 := by
        refine ⟨?_, ?_, WF_sweepStep nowUtc ttl sendOk acc b.id hwf⟩
        · unfold sweepStep
          rw [hfind]
          simp only
          rw [hbt]
          simp only
          rw [if_neg (by omega), if_neg (by simp [hpend])]
          cases ht : lookupTrip acc.1 b.trip_id with
          | none =>
            exact mem_map_keyed_update_self (fun x : Booking => x.id) hb b.id _ (by simp)
          | some t0 =>
            exact mem_map_keyed_update_self (fun x : Booking => x.id)
              hb b.id _ (by simp)
        · unfold sweepStep
          rw [hfind]
          simp only
          rw [hbt]
          simp only
          rw [if_neg (by omega), if_neg (by simp [hpend])]
          cases ht : lookupTrip acc.1 b.trip_id with
          | none => exact List.mem_append_right _ (by simp)
          | some t0 => exact List.mem_append_right _ (by simp)
      have hrest := foldl_sweepStep_inv nowUtc ttl sendOk
        (fun d => WF d ∧ { b with status := expired } ∈ d.bookings)
        (fun acc2 bid2 h => ⟨WF_sweepStep nowUtc ttl sendOk acc2 bid2 h.1,
          terminal_mem_sweepStep nowUtc ttl sendOk acc2 bid2 h.1 h.2 (by simp [terminal3])⟩)
        rest (sweepStep nowUtc ttl sendOk acc b.id) ⟨hstep.2.2, hstep.1⟩
      have hnot := foldl_sweepStep_inv nowUtc ttl sendOk
        (fun _ => True) (fun _ _ _ => trivial) rest
        (sweepStep nowUtc ttl sendOk acc b.id) trivial
      refine ⟨hrest.2, ?_⟩
      have hn2 : ∀ (ids2 : List Nat) (acc2 : DB × List Notice),
          Notice.passengerExpired b.id (sendOk b.id) ∈ acc2.2 →
          Notice.passengerExpired b.id (sendOk b.id)
            ∈ (ids2.foldl (sweepStep nowUtc ttl sendOk) acc2).2 := by
        intro ids2
        induction ids2 with
        | nil => intro acc2 h; exact h
        | cons j js ihj =>
          intro acc2 h
          exact ihj _ (sweepStep_notice_mono nowUtc ttl sendOk acc2 j h)
      exact hn2 rest _ hstep.2.1
    · have hid2 : b.id ∈ rest := by
        rcases List.mem_cons.mp hid with h | h
        · exact absurd h hcase
        · exact h
      have hb2 : b ∈ (sweepStep nowUtc ttl sendOk acc i).1.bookings := by
        unfold sweepStep
        cases hb0 : lookupBooking acc.1 i with
        | none => exact hb
        | some b0 =>
          simp only
          cases hbt : asUtcDatetime b0.booking_time with
          | none => exact hb
          | some bt =>
            simp only
            split
            · exact hb
            split
            · exact hb
            have hneid : b.id ≠ i := hcase
            cases ht : lookupTrip acc.1 b0.trip_id with
            | none => exact mem_updateBooking_of_ne_id hb hneid _
            | some t0 =>
              exact mem_updateBooking_of_ne_id hb hneid _
      exact ih (sweepStep nowUtc ttl sendOk acc i) b
        (WF_sweepStep nowUtc ttl sendOk acc i hwf) hb2 hse hid2

lemma sweepStep_db_eq (nowUtc ttl : Int) (s1 s2 : Nat → Bool)
    (acc1 acc2 : DB × List Notice) (bid : Nat) (h : acc1.1 = acc2.1) :
    (sweepStep nowUtc ttl s1 acc1 bid).1 = (sweepStep nowUtc ttl s2 acc2 bid).1 := by
  unfold sweepStep
  rw [h]
  cases hb0 : lookupBooking acc2.1 bid with
  | none => exact h
  | some b0 =>
    simp only
    cases hbt : asUtcDatetime b0.booking_time with
    | none => exact h
    | some bt =>
      simp only
      split
      · exact h
      split
      · exact h
      rfl

/-- Empty database. -/
def exDb0 : DB := ⟨[], []⟩

/-- Trip 1 (driver 7, departs at 100, 1 seat left, active) with one PENDING
booking of 1 seat by passenger 5; together they account for a creation
capacity of 2. -/
def exDb1 : DB := ⟨[⟨1, 7, 100, 1, true⟩], [⟨1, 1, 5, 1, .dt 0, pending⟩]⟩

/-- Trip 1 with one CONFIRMED booking of 2 seats by passenger 5. -/
def exDb2 : DB := ⟨[⟨1, 7, 100, 1, true⟩], [⟨1, 1, 5, 2, .dt 0, confirmed⟩]⟩

/-- Trip 1 with one EXPIRED booking by passenger 5. -/
def exDb3 : DB := ⟨[⟨1, 7, 100, 1, true⟩], [⟨1, 1, 5, 1, .dt 0, expired⟩]⟩

/-- Trip 1 with one PENDING booking of 2 seats whose booking_time 0 is far
past the TTL deadline at clock 100 with TTL 15. -/
def exDb4 : DB := ⟨[⟨1, 7, 100, 5, true⟩], [⟨1, 1, 5, 2, .dt 0, pending⟩]⟩

/-- Trip 1 with one PENDING booking whose booking_time 85 sits exactly at
the TTL cutoff for clock 100 and TTL 15 (now − booking_time = TTL). -/
def exDb5 : DB := ⟨[⟨1, 7, 100, 1, true⟩], [⟨1, 1, 5, 1, .dt 85, pending⟩]⟩

/-- Trip 1 (driver 7) with one fresh PENDING booking (booking_time 95,
within the TTL window at clock 100). -/
def exDb6 : DB := ⟨[⟨1, 7, 100, 1, true⟩], [⟨1, 1, 5, 1, .dt 95, pending⟩]⟩

/-- Trip 1 with 10 free seats and no bookings. -/
def exDb7 : DB := ⟨[⟨1, 7, 100, 10, true⟩], []⟩

/-- C1: the claimed seat-conservation invariant fails on the code: cancelling
a trip marks its PENDING/CONFIRMED bookings CANCELLED without adding their
seats back, so `seats_available + active booked seats` drops from the
creation capacity (2) to 1 on trip 1 of `exDb1`. -/
theorem claim_C1_counterexample :
    seatTotal exDb1 1 = some 2
    ∧ (cancelTrip exDb1 1 7 (fun _ => true)).reply = Reply.tripCancelledOk
    ∧ lookupBooking ((cancelTrip exDb1 1 7 (fun _ => true)).db) 1
        = some ⟨1, 1, 5, 1, .dt 0, cancelled⟩
    ∧ seatTotal ((cancelTrip exDb1 1 7 (fun _ => true)).db) 1 = some 1
    ∧ (some (1 : Int) ≠ some (2 : Int)) := by
  decide

/-- C1 (amended): the quantity `seats_available + Σ seats_booked over
PENDING/CONFIRMED bookings` of every trip is preserved by create booking,
confirm, reject, cancel by passenger, cancel by driver and the expiry
sweep; trip cancellation is the exception (see the counterexample), since
it cancels bookings without returning their seats. -/
theorem claim_C1_amended (db : DB) (op : EngineOp) (hwf : WF db)
    (hop : op.isCancelTrip = false) (tid : Nat) :
    seatTotal (applyOp db op) tid = seatTotal db tid := by
  cases op with
  | create tid0 n u nl nu s => exact seatTotal_createBooking db tid0 n u nl nu s hwf tid
  | confirm bid a n t s => exact seatTotal_confirmBooking db bid a n t s hwf tid
  | reject bid a s => exact seatTotal_rejectBooking db bid a s hwf tid
  | cancelP bid a s => exact seatTotal_confirmCancel db bid a s hwf tid
  | cancelD bid a s => exact seatTotal_confirmDriverCancel db bid a s hwf tid
  | cancelT tid0 a s => simp [EngineOp.isCancelTrip] at hop
  | sweep n t s => exact seatTotal_expirePendingBookings db n t s hwf tid

/-- C1 witness: the amended conservation theorem applied to a concrete
driver-confirm operation on `exDb1`. -/
theorem claim_C1_witness :
    WF exDb1 ∧ (EngineOp.confirm 1 7 100 15 true).isCancelTrip = false
    ∧ seatTotal (applyOp exDb1 (EngineOp.confirm 1 7 100 15 true)) 1 = seatTotal exDb1 1 :=
  ⟨by decide, by decide,
    claim_C1_amended exDb1 (EngineOp.confirm 1 7 100 15 true) (by decide) (by decide) 1⟩

/-- C10: passenger cancellation confirmation with an unknown booking_id
reads `booking.status` on `None` before any existence check, so the request
ends in an `AttributeError` (not a not-found reply) with no state change. -/
theorem claim_C10_confirmed (db : DB) (bid actor : Nat) (s : Bool)
    (h : lookupBooking db bid = none) :
    confirmCancel db bid actor s = ⟨db, [], Reply.attrError⟩ := by
  unfold confirmCancel
  rw [h]

/-- C10 witness: the theorem applied to the empty database and booking 99. -/
theorem claim_C10_witness :
    lookupBooking exDb0 99 = none
    ∧ confirmCancel exDb0 99 5 true = ⟨exDb0, [], Reply.attrError⟩ :=
  ⟨by decide, claim_C10_confirmed exDb0 99 5 true (by decide)⟩

lemma cancelTrip_eq {db : DB} {tid actor : Nat} {t : Trip} (sendOk : Nat → Bool)
    (ht : lookupTrip db tid = some t) (hact : t.is_active = true)
    (hdr : t.driver_id = actor) :
    cancelTrip db tid actor sendOk =
      ⟨⟨(updateTrip db tid (fun x => { x with is_active := false })).trips,
        db.bookings.map (fun b =>
          if b.trip_id == tid && isActiveStatus b.status && sendOk b.id then
            { b with status := cancelled } else b)⟩,
       (db.bookings.filter (fun b => b.trip_id == tid && isActiveStatus b.status)).map
         (fun b => .tripCancelledSend b.passenger_id (sendOk b.id)),
       .tripCancelledOk⟩ := by
  unfold cancelTrip
  rw [ht]
  simp only
  rw [if_neg (by simp [hact]), if_neg (by simp [hdr])]
  rfl

/-- C2 counterexample: cancelling trip 1 of `exDb1` by its driver marks the
PENDING booking CANCELLED but leaves `seats_available` at 1 instead of
incrementing it by the booking's 1 seat as the claim (and the state-machine
table) requires. -/
theorem claim_C2_counterexample :
    (cancelTrip exDb1 1 7 (fun _ => true)).reply = Reply.tripCancelledOk
    ∧ lookupBooking ((cancelTrip exDb1 1 7 (fun _ => true)).db) 1
        = some ⟨1, 1, 5, 1, .dt 0, cancelled⟩
    ∧ (lookupTrip ((cancelTrip exDb1 1 7 (fun _ => true)).db) 1).map
        (fun x => x.seats_available) = some 1
    ∧ (some (1 : Int) ≠ some (1 + 1 : Int)) := by
  decide

/-- C2 (amended): trip cancellation by the trip's driver sets `is_active`
to false and, for each PENDING/CONFIRMED booking of the trip, attempts one
notification; the booking's status is set to CANCELLED only when that
delivery succeeds; no trip's `seats_available` is changed anywhere on this
path. -/
theorem claim_C2_amended {db : DB} {tid actor : Nat} {t : Trip}
    (sendOk : Nat → Bool)
    (ht : lookupTrip db tid = some t) (hact : t.is_active = true)
    (hdr : t.driver_id = actor) :
    lookupTrip ((cancelTrip db tid actor sendOk).db) tid
        = some { t with is_active := false }
      ∧ (∀ q, (lookupTrip ((cancelTrip db tid actor sendOk).db) q).map
          (fun x => x.seats_available)
          = (lookupTrip db q).map (fun x => x.seats_available))
      ∧ (∀ b ∈ db.bookings,
          (b.trip_id == tid && isActiveStatus b.status && sendOk b.id) = true →
          { b with status := cancelled } ∈ ((cancelTrip db tid actor sendOk).db).bookings)
      ∧ (∀ b ∈ db.bookings,
          (b.trip_id == tid && isActiveStatus b.status && sendOk b.id) = false →
          b ∈ ((cancelTrip db tid actor sendOk).db).bookings)
      ∧ (cancelTrip db tid actor sendOk).notices.length
          = (db.bookings.filter
              (fun b => b.trip_id == tid && isActiveStatus b.status)).length := by
  rw [cancelTrip_eq sendOk ht hact hdr]
  refine ⟨?_, ?_, ?_, ?_, ?_⟩
  · show lookupTrip (updateTrip db tid (fun x => { x with is_active := false })) tid
      = some { t with is_active := false }
    exact lookupTrip_updateTrip_self ht _ (fun x => rfl)
  · intro q
    show (lookupTrip (updateTrip db tid (fun x => { x with is_active := false })) q).map
        (fun x => x.seats_available) = (lookupTrip db q).map (fun x => x.seats_available)
    by_cases hq : q = tid
    · subst hq
      rw [lookupTrip_updateTrip_self ht (fun x => { x with is_active := false })
        (fun x => rfl), ht]
      rfl
    · rw [lookupTrip_updateTrip_other db tid (fun x => { x with is_active := false })
        (fun x => rfl) q hq]
  · intro b hb hcond
    refine List.mem_map.mpr ⟨b, hb, ?_⟩
    rw [if_pos hcond]
  · intro b hb hcond
    refine List.mem_map.mpr ⟨b, hb, ?_⟩
    rw [if_neg (by simp [hcond])]
  · simp

/-- C2 witness: the amended theorem applied to `exDb1` (driver 7 cancels
trip 1 with all notifications succeeding), instantiated at trip 1 and the
single PENDING booking. -/
theorem claim_C2_witness :
    lookupTrip exDb1 1 = some ⟨1, 7, 100, 1, true⟩
    ∧ (⟨1, 7, 100, 1, true⟩ : Trip).is_active = true
    ∧ (⟨1, 7, 100, 1, true⟩ : Trip).driver_id = 7
    ∧ lookupTrip ((cancelTrip exDb1 1 7 (fun _ => true)).db) 1
        = some ⟨1, 7, 100, 1, false⟩
    ∧ (lookupTrip ((cancelTrip exDb1 1 7 (fun _ => true)).db) 1).map
        (fun x => x.seats_available) = (lookupTrip exDb1 1).map (fun x => x.seats_available) :=
  ⟨by decide, by decide, by decide,
    (@claim_C2_amended exDb1 1 7 ⟨1, 7, 100, 1, true⟩ (fun _ => true)
      (by decide) (by decide) (by decide)).1,
    (@claim_C2_amended exDb1 1 7 ⟨1, 7, 100, 1, true⟩ (fun _ => true)
      (by decide) (by decide) (by decide)).2.1 1⟩

/-- C3 counterexample: CONFIRMED is not terminal — the registered passenger
cancellation handler moves a CONFIRMED booking to CANCELLED and changes the
seat count — and the (unregistered) `handle_passenger_trip_completed`
function overwrites even an EXPIRED booking with CONFIRMED. -/
theorem claim_C3_counterexample :
    lookupBooking exDb2 1 = some ⟨1, 1, 5, 2, .dt 0, confirmed⟩
    ∧ (confirmCancel exDb2 1 5 true).reply = Reply.cancelledOk
    ∧ lookupBooking ((confirmCancel exDb2 1 5 true).db) 1
        = some ⟨1, 1, 5, 2, .dt 0, cancelled⟩
    ∧ (lookupTrip ((confirmCancel exDb2 1 5 true).db) 1).map
        (fun x => x.seats_available) = some 3
    ∧ lookupBooking exDb3 1 = some ⟨1, 1, 5, 1, .dt 0, expired⟩
    ∧ lookupBooking (handlePassengerTripCompleted exDb3 1) 1
        = some ⟨1, 1, 5, 1, .dt 0, confirmed⟩ := by
  decide

/-- C3 (amended): a booking in REJECTED, CANCELLED or EXPIRED is never
modified by any engine operation: its record survives every operation
unchanged, and the operations targeting it directly (driver confirm,
driver reject, passenger cancel, driver cancel) leave the whole database
untouched — the cancel handlers tell the caller the booking is already
cancelled, while confirm/reject are (partly) silent no-ops.  CONFIRMED is
not terminal: passenger/driver/trip cancellation moves it to CANCELLED. -/
theorem claim_C3_amended :
    (∀ (db : DB) (op : EngineOp), WF db → ∀ b ∈ db.bookings,
        terminal3 b.status = true → b ∈ (applyOp db op).bookings)
    ∧ (∀ (db : DB) (bid : Nat) (b : Booking), lookupBooking db bid = some b →
        terminal3 b.status = true →
        ∀ (actor : Nat) (n ttl : Int) (s : Bool),
          (confirmBooking db bid actor n ttl s).db = db
          ∧ (rejectBooking db bid actor s).db = db
          ∧ (confirmCancel db bid actor s).db = db
          ∧ (confirmCancel db bid actor s).reply = Reply.alreadyCancelled
          ∧ (confirmDriverCancel db bid actor s).db = db
          ∧ (confirmDriverCancel db bid actor s).reply = Reply.alreadyCancelled) := by
  constructor
  · intro db op hwf b hb hterm
    cases op with
    | create tid n u nl nu s => exact terminal_mem_createBooking tid n u nl nu s hb
    | confirm bid a n t s => exact terminal_mem_confirmBooking bid a n t s hwf hb hterm
    | reject bid a s => exact terminal_mem_rejectBooking bid a s hwf hb hterm
    | cancelP bid a s => exact terminal_mem_confirmCancel bid a s hwf hb hterm
    | cancelD bid a s => exact terminal_mem_confirmDriverCancel bid a s hwf hb hterm
    | cancelT tid a s => exact terminal_mem_cancelTrip tid a s hb hterm
    | sweep n t s => exact terminal_mem_expirePendingBookings db n t s hwf hb hterm
  · intro db bid b hb hterm actor n ttl s
    exact ⟨(confirm_terminal_unchanged hb hterm actor n ttl s).1,
      (reject_terminal_unchanged hb hterm actor s).1,
      (confirmCancel_terminal_unchanged hb hterm actor s).1,
      (confirmCancel_terminal_unchanged hb hterm actor s).2,
      (confirmDriverCancel_terminal_unchanged hb hterm actor s).1,
      (confirmDriverCancel_terminal_unchanged hb hterm actor s).2⟩

/-- C3 witness: the amended theorem applied to the EXPIRED booking of
`exDb3` under a concrete reject operation and directly targeted
cancellation attempts. -/
theorem claim_C3_witness :
    WF exDb3
    ∧ (⟨1, 1, 5, 1, .dt 0, expired⟩ : Booking) ∈ exDb3.bookings
    ∧ terminal3 (BookingStatus.expired) = true
    ∧ (⟨1, 1, 5, 1, .dt 0, expired⟩ : Booking)
        ∈ (applyOp exDb3 (EngineOp.reject 1 7 true)).bookings
    ∧ (confirmCancel exDb3 1 5 true).db = exDb3
    ∧ (confirmCancel exDb3 1 5 true).reply = Reply.alreadyCancelled :=
  ⟨by decide, by decide, by decide,
    claim_C3_amended.1 exDb3 (EngineOp.reject 1 7 true) (by decide)
      ⟨1, 1, 5, 1, .dt 0, expired⟩ (by decide) (by decide),
    (claim_C3_amended.2 exDb3 1 ⟨1, 1, 5, 1, .dt 0, expired⟩ (by decide) (by decide)
      5 0 0 true).2.2.1,
    (claim_C3_amended.2 exDb3 1 ⟨1, 1, 5, 1, .dt 0, expired⟩ (by decide) (by decide)
      5 0 0 true).2.2.2.1⟩

/-- The TTL re-check condition inlined in the confirm handler (identical in
effect to the sweeper's condition). -/
def ttlExpired (b : Booking) (nowUtc ttl : Int) : Bool :=
  match asUtcDatetime b.booking_time with
  | none => false
  | some bt => decide (bt < nowUtc - ttl)

lemma confirmBooking_expired_eq {db : DB} {bid : Nat} {b : Booking} {bt : Int}
    (hb : lookupBooking db bid = some b) (hpend : b.status = pending)
    (hbt : asUtcDatetime b.booking_time = some bt)
    {t : Trip} (ht : lookupTrip db b.trip_id = some t)
    (actor : Nat) {nowUtc ttl : Int} (hexp : bt < nowUtc - ttl) (s : Bool) :
    confirmBooking db bid actor nowUtc ttl s =
      ⟨updateBooking (updateTrip db b.trip_id
          (fun x => { x with seats_available := x.seats_available + b.seats_booked }))
        bid (fun x => { x with status := expired }),
       [.passengerExpired bid s], .expiredNow⟩ := by
  unfold confirmBooking
  rw [hb]
  simp only
  rw [if_neg (by simp [hpend]), if_pos (by simp [hpend])]
  simp only [hbt]
  rw [if_pos (by simpa using hexp), ht]

lemma confirmBooking_fresh_eq {db : DB} {bid : Nat} {b : Booking}
    (hb : lookupBooking db bid = some b) (hpend : b.status = pending)
    (actor : Nat) {nowUtc ttl : Int}
    (hnot : ttlExpired b nowUtc ttl = false) (s : Bool) :
    confirmBooking db bid actor nowUtc ttl s =
      ⟨updateBooking db bid (fun x => { x with status := confirmed }),
       [.passengerConfirmed bid s], .confirmedOk⟩ := by
  unfold confirmBooking
  rw [hb]
  simp only
  rw [if_neg (by simp [hpend]), if_pos (by simp [hpend])]
  unfold ttlExpired at hnot
  cases hp : asUtcDatetime b.booking_time with
  | none =>
    simp only [hp]
    rw [if_neg (by simp)]
  | some bt =>
    rw [hp] at hnot
    have hnot2 : ¬ (bt < nowUtc - ttl) := by simpa using hnot
    simp only [hp]
    rw [if_neg (by simpa using hnot2)]

lemma rejectBooking_pending_eq {db : DB} {bid : Nat} {b : Booking}
    (hb : lookupBooking db bid = some b) (hpend : b.status = pending)
    {t : Trip} (ht : lookupTrip db b.trip_id = some t)
    (actor : Nat) (s : Bool) :
    rejectBooking db bid actor s =
      ⟨updateBooking (updateTrip db b.trip_id
          (fun x => { x with seats_available := x.seats_available + b.seats_booked }))
        bid (fun x => { x with status := rejected }),
       [.passengerRejected bid s], .rejectedOk⟩ := by
  unfold rejectBooking
  rw [hb]
  simp only
  rw [if_pos (by simp [hpend]), ht]

/-- C4 counterexample: the reject handler performs no TTL re-check: for the
long-expired PENDING booking of `exDb4` (booking_time 0, clock 100, TTL
15), reject commits REJECTED — not the EXPIRED transition the claim says
confirm and reject both commit. -/
theorem claim_C4_counterexample :
    lookupBooking exDb4 1 = some ⟨1, 1, 5, 2, .dt 0, pending⟩
    ∧ asUtcDatetime (RawTime.dt 0) = some 0
    ∧ ((0 : Int) < 100 - 15)
    ∧ (rejectBooking exDb4 1 7 true).reply = Reply.rejectedOk
    ∧ lookupBooking ((rejectBooking exDb4 1 7 true).db) 1
        = some ⟨1, 1, 5, 2, .dt 0, rejected⟩
    ∧ Reply.rejectedOk ≠ Reply.expiredNow := by
  decide

/-- C4 (amended): confirm re-checks the TTL inside its transaction and, for
a PENDING booking whose deadline has passed, commits the EXPIRED transition
(seats returned to the trip, expiry notification) instead of CONFIRMED; the
reject handler performs no such re-check and commits REJECTED on the same
booking (seats are returned on that path too, with a rejection
notification). -/
theorem claim_C4_amended {db : DB} {bid : Nat} {b : Booking} {t : Trip} {bt : Int}
    (hb : lookupBooking db bid = some b) (hpend : b.status = pending)
    (hbt : asUtcDatetime b.booking_time = some bt)
    (ht : lookupTrip db b.trip_id = some t)
    (actor : Nat) (nowUtc ttl : Int) (hexp : bt < nowUtc - ttl) (s : Bool) :
    ((confirmBooking db bid actor nowUtc ttl s).reply = Reply.expiredNow
      ∧ lookupBooking ((confirmBooking db bid actor nowUtc ttl s).db) bid
          = some { b with status := expired }
      ∧ lookupTrip ((confirmBooking db bid actor nowUtc ttl s).db) b.trip_id
          = some { t with seats_available := t.seats_available + b.seats_booked }
      ∧ (confirmBooking db bid actor nowUtc ttl s).notices
          = [.passengerExpired bid s])
    ∧ ((rejectBooking db bid actor s).reply = Reply.rejectedOk
      ∧ lookupBooking ((rejectBooking db bid actor s).db) bid
          = some { b with status := rejected }
      ∧ lookupTrip ((rejectBooking db bid actor s).db) b.trip_id
          = some { t with seats_available := t.seats_available + b.seats_booked }
      ∧ (rejectBooking db bid actor s).notices = [.passengerRejected bid s]) := by
  rw [confirmBooking_expired_eq hb hpend hbt ht actor hexp s,
    rejectBooking_pending_eq hb hpend ht actor s]
  refine ⟨⟨rfl, ?_, ?_, rfl⟩, rfl, ?_, ?_, rfl⟩
  · exact lookupBooking_updateBooking_self hb
      (fun x => { x with status := expired }) (fun x => rfl)
  · show lookupTrip (updateTrip db b.trip_id
      (fun x => { x with seats_available := x.seats_available + b.seats_booked })) b.trip_id
      = some { t with seats_available := t.seats_available + b.seats_booked }
    exact lookupTrip_updateTrip_self ht _ (fun x => rfl)
  · exact lookupBooking_updateBooking_self hb
      (fun x => { x with status := rejected }) (fun x => rfl)
  · show lookupTrip (updateTrip db b.trip_id
      (fun x => { x with seats_available := x.seats_available + b.seats_booked })) b.trip_id
      = some { t with seats_available := t.seats_available + b.seats_booked }
    exact lookupTrip_updateTrip_self ht _ (fun x => rfl)

/-- C4 witness: the amended theorem applied to `exDb4` (clock 100, TTL 15),
projected to the confirm-commits-EXPIRED and reject-commits-REJECTED
conclusions. -/
theorem claim_C4_witness :
    lookupBooking exDb4 1 = some ⟨1, 1, 5, 2, .dt 0, pending⟩
    ∧ ((0 : Int) < 100 - 15)
    ∧ (confirmBooking exDb4 1 7 100 15 true).reply = Reply.expiredNow
    ∧ (rejectBooking exDb4 1 7 true).reply = Reply.rejectedOk :=
  ⟨by decide, by decide,
    (@claim_C4_amended exDb4 1 ⟨1, 1, 5, 2, .dt 0, pending⟩ ⟨1, 7, 100, 5, true⟩ 0
      (by decide) (by decide) (by decide) (by decide) 7 100 15 (by decide) true).1.1,
    (@claim_C4_amended exDb4 1 ⟨1, 1, 5, 2, .dt 0, pending⟩ ⟨1, 7, 100, 5, true⟩ 0
      (by decide) (by decide) (by decide) (by decide) 7 100 15 (by decide) true).2.1⟩

/-- C7 counterexample: the confirm handler never checks the requesting
actor: actor 999 (not driver 7 of trip 1) successfully confirms the fresh
PENDING booking of `exDb6`, contradicting the claim that any non-driver
request is refused without a status change. -/
theorem claim_C7_counterexample :
    lookupTrip exDb6 1 = some ⟨1, 7, 100, 1, true⟩
    ∧ ((999 : Nat) ≠ 7)
    ∧ (confirmBooking exDb6 1 999 100 15 true).reply = Reply.confirmedOk
    ∧ lookupBooking ((confirmBooking exDb6 1 999 100 15 true).db) 1
        = some ⟨1, 1, 5, 1, .dt 95, confirmed⟩ := by
  decide

/-- C7 (amended): the confirm and reject handlers consult the requesting
actor for nothing: their entire result is independent of the actor, and a
PENDING, unexpired booking is confirmed whoever issues the request.  (The
passenger- and driver-cancel handlers do check ownership; confirm/reject
rely solely on the confirmation keyboard having been delivered to the
driver's chat.) -/
theorem claim_C7_amended :
    (∀ (db : DB) (bid a1 a2 : Nat) (nowUtc ttl : Int) (s : Bool),
        confirmBooking db bid a1 nowUtc ttl s = confirmBooking db bid a2 nowUtc ttl s)
    ∧ (∀ (db : DB) (bid a1 a2 : Nat) (s : Bool),
        rejectBooking db bid a1 s = rejectBooking db bid a2 s)
    ∧ (∀ (db : DB) (bid actor : Nat) (nowUtc ttl : Int) (s : Bool) (b : Booking),
        lookupBooking db bid = some b → b.status = pending →
        ttlExpired b nowUtc ttl = false →
        (confirmBooking db bid actor nowUtc ttl s).reply = Reply.confirmedOk
        ∧ lookupBooking ((confirmBooking db bid actor nowUtc ttl s).db) bid
            = some { b with status := confirmed }) := by
  refine ⟨fun db bid a1 a2 n ttl s => rfl, fun db bid a1 a2 s => rfl, ?_⟩
  intro db bid actor nowUtc ttl s b hb hpend hnot
  rw [confirmBooking_fresh_eq hb hpend actor hnot s]
  exact ⟨rfl,
    lookupBooking_updateBooking_self hb (fun x => { x with status := confirmed })
      (fun x => rfl)⟩

/-- C7 witness: the amended theorem applied to `exDb6` with two different
actors (7 and 999) and to the concrete confirm of booking 1 by actor 999. -/
theorem claim_C7_witness :
    confirmBooking exDb6 1 7 100 15 true = confirmBooking exDb6 1 999 100 15 true
    ∧ lookupBooking exDb6 1 = some ⟨1, 1, 5, 1, .dt 95, pending⟩
    ∧ ttlExpired ⟨1, 1, 5, 1, .dt 95, pending⟩ 100 15 = false
    ∧ (confirmBooking exDb6 1 999 100 15 true).reply = Reply.confirmedOk :=
  ⟨claim_C7_amended.1 exDb6 1 7 999 100 15 true, by decide, by decide,
    (claim_C7_amended.2.2 exDb6 1 999 100 15 true ⟨1, 1, 5, 1, .dt 95, pending⟩
      (by decide) (by decide) (by decide)).1⟩

lemma sweep_db_ignores_send (nowUtc ttl : Int) (s1 s2 : Nat → Bool) :
    ∀ (ids : List Nat) (acc1 acc2 : DB × List Notice), acc1.1 = acc2.1 →
      (ids.foldl (sweepStep nowUtc ttl s1) acc1).1
        = (ids.foldl (sweepStep nowUtc ttl s2) acc2).1 := by
  intro ids
  induction ids with
  | nil => intro acc1 acc2 h; exact h
  | cons i rest ih =>
    intro acc1 acc2 h
    exact ih _ _ (sweepStep_db_eq nowUtc ttl s1 s2 acc1 acc2 i h)

/-- C6 counterexample: in trip cancellation the per-passenger CANCELLED
write happens only after a successful notification: with delivery failing,
the booking of `exDb1` stays PENDING, so the notification failure does
change the committed outcome of the operation. -/
theorem claim_C6_counterexample :
    lookupBooking ((cancelTrip exDb1 1 7 (fun _ => false)).db) 1
        = some ⟨1, 1, 5, 1, .dt 0, pending⟩
    ∧ lookupBooking ((cancelTrip exDb1 1 7 (fun _ => true)).db) 1
        = some ⟨1, 1, 5, 1, .dt 0, cancelled⟩
    ∧ (cancelTrip exDb1 1 7 (fun _ => false)).db
        ≠ (cancelTrip exDb1 1 7 (fun _ => true)).db := by
  decide

/-- C6 (amended): for booking creation, driver confirm, driver reject,
passenger cancel, driver cancel and the expiry sweep, the committed
database is independent of notification delivery success — delivery happens
after the commit (or its failure is swallowed); trip cancellation is the
exception: there each booking's CANCELLED write is guarded by the
notification to that passenger succeeding (see the counterexample). -/
theorem claim_C6_amended :
    (∀ (db : DB) (tid : Nat) (n : Int) (u : Nat) (nl nu : Int) (s1 s2 : Bool),
        (createBooking db tid n u nl nu s1).db = (createBooking db tid n u nl nu s2).db)
    ∧ (∀ (db : DB) (bid a : Nat) (nw ttl : Int) (s1 s2 : Bool),
        (confirmBooking db bid a nw ttl s1).db = (confirmBooking db bid a nw ttl s2).db)
    ∧ (∀ (db : DB) (bid a : Nat) (s1 s2 : Bool),
        (rejectBooking db bid a s1).db = (rejectBooking db bid a s2).db)
    ∧ (∀ (db : DB) (bid a : Nat) (s1 s2 : Bool),
        (confirmCancel db bid a s1).db = (confirmCancel db bid a s2).db)
    ∧ (∀ (db : DB) (bid a : Nat) (s1 s2 : Bool),
        (confirmDriverCancel db bid a s1).db = (confirmDriverCancel db bid a s2).db)
    ∧ (∀ (db : DB) (nw ttl : Int) (s1 s2 : Nat → Bool),
        (expirePendingBookings db nw ttl s1).1 = (expirePendingBookings db nw ttl s2).1) := by
  refine ⟨?_, ?_, ?_, ?_, ?_, ?_⟩
  · intro db tid n u nl nu s1 s2
    unfold createBooking
    cases ht : lookupTrip db tid with
    | none => rfl
    | some trip =>
      simp only
      by_cases h1 : (!trip.is_active || decide (trip.seats_available ≤ 0)) = true
      · simp only [if_pos h1]
      · simp only [if_neg h1]
        by_cases h2 : (trip.driver_id == u) = true
        · simp only [if_pos h2]
        · simp only [if_neg h2]
          by_cases h3 : trip.date < nl
          · simp only [if_pos h3]
          · simp only [if_neg h3]
            by_cases h4 : (decide (n < 1) || decide (n > trip.seats_available)) = true
            · simp only [if_pos h4]
            · simp only [if_neg h4]
              by_cases h5 : (db.bookings.any (fun b =>
                  b.trip_id == tid && b.passenger_id == u && isActiveStatus b.status)) = true
              · simp only [if_pos h5]
              · simp only [if_neg h5]
  · intro db bid a nw ttl s1 s2
    unfold confirmBooking
    cases hb : lookupBooking db bid with
    | none => rfl
    | some b =>
      simp only
      by_cases h1 : (b.status == expired) = true
      · simp only [if_pos h1]
      · simp only [if_neg h1]
        by_cases h2 : (b.status == pending) = true
        · simp only [if_pos h2]
          cases hbt : asUtcDatetime b.booking_time with
          | none => rfl
          | some bt =>
            simp only
            by_cases h3 : (decide (bt < nw - ttl)) = true
            · simp only [if_pos h3]
            · simp only [if_neg h3]
        · simp only [if_neg h2]
  · intro db bid a s1 s2
    unfold rejectBooking
    cases hb : lookupBooking db bid with
    | none => rfl
    | some b =>
      simp only
      by_cases h1 : (b.status == pending) = true
      · simp only [if_pos h1]
        cases ht : lookupTrip db b.trip_id with
        | none => rfl
        | some t0 => rfl
      · simp only [if_neg h1]
  · intro db bid a s1 s2
    unfold confirmCancel
    cases hb : lookupBooking db bid with
    | none => rfl
    | some b =>
      simp only
      by_cases h1 : (b.status == cancelled || b.status == rejected
          || b.status == expired) = true
      · simp only [if_pos h1]
      · simp only [if_neg h1]
        by_cases h2 : (b.passenger_id == a) = true
        · simp only [if_pos h2]
          cases ht : lookupTrip db b.trip_id with
          | none => rfl
          | some t0 => rfl
        · simp only [if_neg h2]
  · intro db bid a s1 s2
    unfold confirmDriverCancel
    cases hb : lookupBooking db bid with
    | none => rfl
    | some b =>
      simp only
      by_cases h1 : (b.status == cancelled || b.status == rejected
          || b.status == expired) = true
      · simp only [if_pos h1]
      · simp only [if_neg h1]
        cases ht : lookupTrip db b.trip_id with
        | none => rfl
        | some t0 =>
          simp only
          by_cases h2 : (t0.driver_id != a) = true
          · simp only [if_pos h2]
          · simp only [if_neg h2]
  · intro db nw ttl s1 s2
    unfold expirePendingBookings
    exact sweep_db_ignores_send nw ttl s1 s2 _ (db, []) (db, []) rfl

/-- C8 counterexample: the engine-level creation check bounds the request
only by the trip's availability: a crafted request for 7 seats (above the
claimed fixed maximum of 5) on the 10-seat trip of `exDb7` is accepted and
creates a 7-seat PENDING booking. -/
theorem claim_C8_counterexample :
    (createBooking exDb7 1 7 5 50 50 true).reply = Reply.created
    ∧ lookupBooking ((createBooking exDb7 1 7 5 50 50 true).db) 1
        = some ⟨1, 1, 5, 7, .dt 50, pending⟩
    ∧ (lookupTrip ((createBooking exDb7 1 7 5 50 50 true).db) 1).map
        (fun x => x.seats_available) = some 3
    ∧ ¬ ((7 : Int) ≤ 5) := by
  decide

/-- C8 (amended): in an otherwise valid context, a creation request is
accepted exactly when the requested seat count is a positive integer not
exceeding the trip's current availability (and is otherwise rejected with
no record created and no seat change); the fixed per-request maximum of 5
lives only in the seat-quantity keyboard, whose buttons range over
1..min(5, availability) and are never re-validated by the engine. -/
theorem claim_C8_amended :
    (∀ (db : DB) (tid : Nat) (n : Int) (u : Nat) (nl nu : Int) (s : Bool) (t : Trip),
      lookupTrip db tid = some t → t.is_active = true → 0 < t.seats_available →
      t.driver_id ≠ u → ¬ t.date < nl →
      (db.bookings.any (fun b =>
        b.trip_id == tid && b.passenger_id == u && isActiveStatus b.status)) = false →
      (((createBooking db tid n u nl nu s).reply = Reply.created
          ↔ 1 ≤ n ∧ n ≤ t.seats_available)
        ∧ (¬ (1 ≤ n ∧ n ≤ t.seats_available) →
            (createBooking db tid n u nl nu s).db = db
            ∧ (createBooking db tid n u nl nu s).reply = Reply.badQuantity)))
    ∧ (∀ (v m : Int), m ∈ seatQtyButtons v → 1 ≤ m ∧ m ≤ 5 ∧ m ≤ v) := by
  constructor
  · intro db tid n u nl nu s t ht hact hseats hdr hdate hdup
    unfold createBooking
    rw [ht]
    simp only
    rw [if_neg (by simp [hact]; omega), if_neg (by simp [hdr]),
      if_neg (by simpa using hdate)]
    by_cases hq : 1 ≤ n ∧ n ≤ t.seats_available
    · rw [if_neg (by simp; omega), if_neg (by simp [hdup])]
      constructor
      · simp [hq]
      · intro hcon
        exact absurd hq hcon
    · rw [if_pos (by simp; omega)]
      constructor
      · constructor
        · intro h
          cases h
        · intro h
          exact absurd h hq
      · intro _
        exact ⟨rfl, rfl⟩
  · intro v m hm
    unfold seatQtyButtons at hm
    rcases List.mem_map.mp hm with ⟨i, hi, hmi⟩
    rw [List.mem_range] at hi
    have hmi2 : ((i : Nat) : Int) + 1 = m := hmi
    have hiv : ((i : Nat) : Int) < min 5 v := Int.lt_toNat.mp hi
    have h1 : ((i : Nat) : Int) < 5 := lt_of_lt_of_le hiv (min_le_left _ _)
    have h2 : ((i : Nat) : Int) < v := lt_of_lt_of_le hiv (min_le_right _ _)
    refine ⟨?_, ?_, ?_⟩ <;> omega

/-- C8 witness: the amended theorem applied to `exDb7`: a request for 11
seats (above availability 10) is rejected as a bad quantity with no state
change, and every button the keyboard offers for availability 10 is between
1 and 5. -/
theorem claim_C8_witness :
    lookupTrip exDb7 1 = some ⟨1, 7, 100, 10, true⟩
    ∧ ((createBooking exDb7 1 11 5 50 50 true).db = exDb7
        ∧ (createBooking exDb7 1 11 5 50 50 true).reply = Reply.badQuantity)
    ∧ ((3 : Int) ∈ seatQtyButtons 10 ∧ 1 ≤ (3 : Int) ∧ (3 : Int) ≤ 5 ∧ (3 : Int) ≤ 10) :=
  ⟨by decide,
    (claim_C8_amended.1 exDb7 1 11 5 50 50 true ⟨1, 7, 100, 10, true⟩
      (by decide) (by decide) (by decide) (by decide) (by decide) (by decide)).2
      (by decide),
    by decide, claim_C8_amended.2 10 3 (by decide)⟩

/-- C5 counterexample: the sweep expires a booking only when
`booking_time < now − TTL` strictly: the booking of `exDb5` whose age is
exactly the TTL (booking_time 85, clock 100, TTL 15) is left PENDING,
contradicting the claim that age `≥ TTL` expires. -/
theorem claim_C5_counterexample :
    lookupBooking exDb5 1 = some ⟨1, 1, 5, 1, .dt 85, pending⟩
    ∧ asUtcDatetime (RawTime.dt 85) = some 85
    ∧ (100 : Int) - 85 = 15
    ∧ lookupBooking (expirePendingBookings exDb5 100 15 (fun _ => true)).1 1
        = some ⟨1, 1, 5, 1, .dt 85, pending⟩ := by
  decide

/-- C5 (amended): one sweep leaves every non-PENDING booking untouched,
skips PENDING bookings with unparseable timestamps and PENDING bookings
aged at most the TTL, and for every PENDING booking strictly older than the
TTL (booking_time < now − TTL) commits the EXPIRED status, attempts the
expiry notification (failures swallowed per booking; a single commit covers
the sweep) and conserves every trip's seat total. -/
theorem claim_C5_amended (db : DB) (nowUtc ttl : Int) (sendOk : Nat → Bool)
    (hwf : WF db) :
    (∀ b ∈ db.bookings, b.status ≠ pending →
        b ∈ (expirePendingBookings db nowUtc ttl sendOk).1.bookings)
    ∧ (∀ b ∈ db.bookings, b.status = pending →
        asUtcDatetime b.booking_time = none →
        b ∈ (expirePendingBookings db nowUtc ttl sendOk).1.bookings)
    ∧ (∀ b ∈ db.bookings, ∀ bt : Int, b.status = pending →
        asUtcDatetime b.booking_time = some bt → nowUtc - ttl ≤ bt →
        b ∈ (expirePendingBookings db nowUtc ttl sendOk).1.bookings)
    ∧ (∀ b ∈ db.bookings, ∀ bt : Int, b.status = pending →
        asUtcDatetime b.booking_time = some bt → bt < nowUtc - ttl →
        { b with status := expired }
            ∈ (expirePendingBookings db nowUtc ttl sendOk).1.bookings
          ∧ Notice.passengerExpired b.id (sendOk b.id)
            ∈ (expirePendingBookings db nowUtc ttl sendOk).2)
    ∧ (∀ tid, seatTotal (expirePendingBookings db nowUtc ttl sendOk).1 tid
        = seatTotal db tid) := by
  refine ⟨?_, ?_, ?_, ?_, ?_⟩
  · intro b hb hs
    refine expire_mem_of_not_shouldExpire db nowUtc ttl sendOk hwf hb ?_
    have hs2 : (b.status == pending) = false := by simpa using hs
    simp [shouldExpire, hs2]
  · intro b hb hs hp
    refine expire_mem_of_not_shouldExpire db nowUtc ttl sendOk hwf hb ?_
    simp [shouldExpire, hp]
  · intro b hb bt hs hp hge
    refine expire_mem_of_not_shouldExpire db nowUtc ttl sendOk hwf hb ?_
    simp [shouldExpire, hp]
    intro _
    omega
  · intro b hb bt hs hp hlt
    have hse : shouldExpire nowUtc ttl b = true := by
      simp [shouldExpire, hs, hp, hlt]
    have hid : b.id ∈ (db.bookings.filter (fun x => x.status == pending)).map
        (fun x => x.id) :=
      List.mem_map_of_mem _ (List.mem_filter.mpr ⟨hb, by simp [hs]⟩)
    exact sweep_go_expires nowUtc ttl sendOk _ (db, []) b hwf hb hse hid
  · exact seatTotal_expirePendingBookings db nowUtc ttl sendOk hwf

/-- C5 witness: the amended theorem applied to `exDb4` (booking_time 0,
clock 100, TTL 15): the sole PENDING booking is expired with its expiry
notification attempted, and trip 1's seat total is conserved. -/
theorem claim_C5_witness :
    WF exDb4
    ∧ (⟨1, 1, 5, 2, .dt 0, pending⟩ : Booking) ∈ exDb4.bookings
    ∧ asUtcDatetime (RawTime.dt 0) = some 0
    ∧ ((0 : Int) < 100 - 15)
    ∧ (⟨1, 1, 5, 2, .dt 0, expired⟩ : Booking)
        ∈ (expirePendingBookings exDb4 100 15 (fun _ => true)).1.bookings
    ∧ Notice.passengerExpired 1 true
        ∈ (expirePendingBookings exDb4 100 15 (fun _ => true)).2
    ∧ seatTotal (expirePendingBookings exDb4 100 15 (fun _ => true)).1 1
        = seatTotal exDb4 1 :=
  ⟨by decide, by decide, by decide, by decide,
    ((claim_C5_amended exDb4 100 15 (fun _ => true) (by decide)).2.2.2.1
      ⟨1, 1, 5, 2, .dt 0, pending⟩ (by decide) 0 (by decide) (by decide) (by decide)).1,
    ((claim_C5_amended exDb4 100 15 (fun _ => true) (by decide)).2.2.2.1
      ⟨1, 1, 5, 2, .dt 0, pending⟩ (by decide) 0 (by decide) (by decide) (by decide)).2,
    (claim_C5_amended exDb4 100 15 (fun _ => true) (by decide)).2.2.2.2 1⟩

/-- C9: every engine operation preserves the at-most-one-active-booking
invariant per (trip, passenger) pair, and in an otherwise valid context a
creation request by a passenger who already holds a PENDING or CONFIRMED
booking on the trip is rejected with the duplicate condition and leaves the
database unchanged. -/
theorem claim_C9_confirmed :
    (∀ (db : DB) (op : EngineOp), WF db → atMostOne db → atMostOne (applyOp db op))
    ∧ (∀ (db : DB) (tid : Nat) (n : Int) (u : Nat) (nl nu : Int) (s : Bool)
        (t : Trip) (b : Booking),
        lookupTrip db tid = some t → t.is_active = true → 0 < t.seats_available →
        t.driver_id ≠ u → ¬ t.date < nl → 1 ≤ n → n ≤ t.seats_available →
        b ∈ db.bookings → pairActive tid u b = true →
        (createBooking db tid n u nl nu s).reply = Reply.duplicateBooking
        ∧ (createBooking db tid n u nl nu s).db = db) := by
  constructor
  · intro db op hwf hmo
    cases op with
    | create tid n u nl nu s => exact atMostOne_createBooking db tid n u nl nu s hmo
    | confirm bid a n t s =>
      exact fun q p =>
        le_trans (countActive_confirmBooking_le db bid a n t s hwf q p) (hmo q p)
    | reject bid a s =>
      exact fun q p => le_trans (countActive_rejectBooking_le db bid a s q p) (hmo q p)
    | cancelP bid a s =>
      exact fun q p => le_trans (countActive_confirmCancel_le db bid a s q p) (hmo q p)
    | cancelD bid a s =>
      exact fun q p =>
        le_trans (countActive_confirmDriverCancel_le db bid a s q p) (hmo q p)
    | cancelT tid a s =>
      exact fun q p => le_trans (countActive_cancelTrip_le db tid a s q p) (hmo q p)
    | sweep n t s =>
      exact fun q p =>
        le_trans (countActive_expirePendingBookings_le db n t s q p) (hmo q p)
  · intro db tid n u nl nu s t b ht hact hseats hdr hdate hn1 hn2 hb hp
    unfold createBooking
    rw [ht]
    simp only
    rw [if_neg (by simp [hact]; omega), if_neg (by simp [hdr]),
      if_neg (by simpa using hdate), if_neg (by simp; omega)]
    rw [if_pos (List.any_eq_true.mpr ⟨b, hb, by simpa [pairActive] using hp⟩)]
    exact ⟨rfl, rfl⟩

/-- C9 witness: the invariant-preservation and duplicate-rejection parts
applied to `exDb1`: passenger 5 (who already holds the PENDING booking on
trip 1) is refused a second booking with the duplicate condition and no
state change. -/
theorem claim_C9_witness :
    WF exDb1
    ∧ countActive (applyOp exDb1 (EngineOp.create 1 1 5 50 50 true)) 1 5 ≤ 1
    ∧ (createBooking exDb1 1 1 5 50 50 true).reply = Reply.duplicateBooking
    ∧ (createBooking exDb1 1 1 5 50 50 true).db = exDb1 :=
  ⟨by decide,
    claim_C9_confirmed.1 exDb1 (EngineOp.create 1 1 5 50 50 true) (by decide)
      (fun tid pid => le_trans (List.countP_le_length _) (by decide)) 1 5,
    (claim_C9_confirmed.2 exDb1 1 1 5 50 50 true ⟨1, 7, 100, 1, true⟩
      ⟨1, 1, 5, 1, .dt 0, pending⟩ (by decide) (by decide) (by decide) (by decide)
      (by decide) (by decide) (by decide) (by decide) (by decide)).1,
    (claim_C9_confirmed.2 exDb1 1 1 5 50 50 true ⟨1, 7, 100, 1, true⟩
      ⟨1, 1, 5, 1, .dt 0, pending⟩ (by decide) (by decide) (by decide) (by decide)
      (by decide) (by decide) (by decide) (by decide) (by decide)).2⟩

end Poputka
